import Mathlib

/-!
Verification of the gobgp BGP message codec and session engine
(files message.go, open.go, update.go, parse.go and the unnamed header,
notification and client source files of the repository).

Modelling conventions:
* Go byte slices and Go strings are modelled as `List Nat`, each element a
  byte value below 256 wherever the source produces one.
* Functions returning `(value, err)` in Go are modelled in the `Out` monad:
  `Out.ok` for a nil error, `Out.err` for a non-nil error (the static part
  of the `fmt.Errorf` format string is kept, interpolated arguments are
  dropped), and `Out.crash` for a Go runtime panic (index out of range);
  out-of-bounds byte reads are therefore explicit in the model.
* Machine integers are `Nat` (or `Int` where the Go source uses `int`),
  with truncating conversions written as `% 256` or performed by the
  big-endian byte serialisers, which mask inherently.
* The textual IP forms accepted by `net.ParseIP` / `net.ParseCIDR` are
  modelled for IPv4 dotted-quad inputs (four decimal octets, no leading
  zeros, values up to 255, and for CIDR a decimal mask length up to 32
  after a slash, leading zeros allowed as in Go's `dtoi`); IPv6 textual
  forms are outside the modelled input domain.
-/

/-- Outcome of a Go function returning `(value, err)`; `crash` models a
runtime panic from an out-of-range slice index. -/
inductive Out (α : Type) where
  | ok : α → Out α
  | err : String → Out α
  | crash : Out α
deriving DecidableEq, Repr

def obind {α β : Type} (x : Out α) (f : α → Out β) : Out β :=
  match x with
  | Out.ok a => f a
  | Out.err e => Out.err e
  | Out.crash => Out.crash

def Out.isOk {α : Type} : Out α → Bool
  | Out.ok _ => true
  | _ => false

def Out.isErr {α : Type} : Out α → Bool
  | Out.err _ => true
  | _ => false

@[simp] theorem obind_ok {α β : Type} (a : α) (f : α → Out β) :
    obind (Out.ok a) f = f a := rfl

@[simp] theorem obind_err {α β : Type} (e : String) (f : α → Out β) :
    obind (Out.err e) f = Out.err e := rfl

@[simp] theorem obind_crash {α β : Type} (f : α → Out β) :
    obind (Out.crash : Out α) f = Out.crash := rfl

/-- Go strings are byte strings; model them as lists of byte values. -/
abbrev GoStr := List Nat

/-- ASCII byte list of a Lean string literal, for writing concrete Go
strings in statements. -/
def gostr (s : String) : GoStr := s.data.map Char.toNat

/-- Reading byte `i` of a slice; `crash` models the Go panic on an
out-of-range index. -/
def byteAt (l : List Nat) (i : Nat) : Out Nat :=
  match l.get? i with
  | some b => Out.ok b
  | none => Out.crash

/-- `binary.BigEndian.Uint16(l[i:i+2])`. -/
def read16 (l : List Nat) (i : Nat) : Out Nat :=
  obind (byteAt l i) fun a =>
  obind (byteAt l (i+1)) fun b =>
  Out.ok (a * 256 + b)

/-- `binary.BigEndian.PutUint16`: the two big-endian bytes of `v`
(truncating to 16 bits, as the Go `uint16` argument does). -/
def be16 (v : Nat) : List Nat := [v / 256 % 256, v % 256]

/-- `binary.BigEndian.PutUint32`: the four big-endian bytes of `v`
(truncating to 32 bits). -/
def be32 (v : Nat) : List Nat :=
  [v / 16777216 % 256, v / 65536 % 256, v / 256 % 256, v % 256]

/-! ### Decimal text helpers (Go `net` package internals) -/

/-- ASCII decimal digit test. -/
def isDigitByte (b : Nat) : Bool := 48 ≤ b && b ≤ 57

/-- Numeric value of a run of ASCII digits (Go `dtoi` accumulation). -/
def decValue (f : List Nat) : Nat := f.foldl (fun a c => a * 10 + (c - 48)) 0

/-- Go `uitoa`: decimal ASCII bytes of a natural number. -/
def decFormat (n : Nat) : GoStr := (Nat.toDigits 10 n).map Char.toNat

/-- Split a byte string at every occurrence of byte `c`. -/
def splitOnByte (c : Nat) : List Nat → List (List Nat)
  | [] => [[]]
  | x :: xs =>
    if x = c then [] :: splitOnByte c xs
    else
      match splitOnByte c xs with
      | [] => [[x]]
      | y :: ys => (x :: y) :: ys

/-- Split a byte string at the first occurrence of byte `c`
(Go `byteIndex`), or `none` if `c` does not occur. -/
def splitOnFirst (c : Nat) : List Nat → Option (List Nat × List Nat)
  | [] => none
  | x :: xs =>
    if x = c then some ([], xs)
    else (splitOnFirst c xs).map (fun p => (x :: p.1, p.2))

/-- One dotted-quad field as parsed by `netip.ParseAddr`: nonempty, all
digits, no leading zero, value up to 255. -/
def parseField (f : List Nat) : Option Nat :=
  if f = [] then none
  else if ¬ f.all isDigitByte then none
  else if 1 < f.length ∧ f.headI = 48 then none
  else if decValue f ≤ 255 then some (decValue f) else none

/-- `net.ParseIP(s).To4()` for IPv4 dotted-quad text: the four octets. -/
def parseIPv4 (s : GoStr) : Option (Nat × Nat × Nat × Nat) :=
  match splitOnByte 46 s with
  | [f1, f2, f3, f4] =>
    match parseField f1, parseField f2, parseField f3, parseField f4 with
    | some a, some b, some c, some d => some (a, b, c, d)
    | _, _, _, _ => none
  | _ => none

/-- The mask-length part of `net.ParseCIDR`: Go `dtoi` over the whole
remainder (digits only, leading zeros allowed), bounded by 32. -/
def parseMaskLen (f : List Nat) : Option Nat :=
  if f = [] then none
  else if ¬ f.all isDigitByte then none
  else if decValue f ≤ 32 then some (decValue f) else none

/-- Combine four octets into the big-endian 32-bit network number. -/
def u32 (a b c d : Nat) : Nat := ((a * 256 + b) * 256 + c) * 256 + d

/-- `ip.Mask(CIDRMask(mk,32))` as a number: clear the `32-mk` low bits. -/
def applyMask (ip mk : Nat) : Nat := ip / 2 ^ (32 - mk) * 2 ^ (32 - mk)

/-- `net.ParseCIDR` for IPv4 text: the (unmasked) address and the mask
length. -/
def goParseCIDR (s : GoStr) : Option (Nat × Nat) :=
  match splitOnFirst 47 s with
  | none => none
  | some (addr, mask) =>
    match parseIPv4 addr, parseMaskLen mask with
    | some (a, b, c, d), some mk => some (u32 a b c d, mk)
    | _, _ => none

/-- `net.IPv4(a,b,c,d).String()`: canonical dotted-quad text. -/
def ipFormat (a b c d : Nat) : GoStr :=
  decFormat a ++ [46] ++ decFormat b ++ [46] ++ decFormat c ++ [46] ++ decFormat d

/-- `net.IPNet.String()` for an IP built from four octets and a
`CIDRMask(mk,32)` mask: `"a.b.c.d/mk"`, or `"<nil>"` when `mk > 32`
(in which case `CIDRMask` returns a nil mask). -/
def ipnetString (a b c d mk : Nat) : GoStr :=
  if mk ≤ 32 then ipFormat a b c d ++ [47] ++ decFormat mk
  else gostr "<nil>"

/-! ### parse.go -/

/-- `parsePrefix` (parse.go): CIDR text to masked network number and mask
length; the error is the `net.ParseCIDR` parse error. -/
def parsePrefix (s : GoStr) : Out (Nat × Nat) :=
  match goParseCIDR s with
  | none => Out.err "invalid CIDR address"
  | some (ip, mk) => Out.ok (applyMask ip mk, mk)

/-! ### Message header (unnamed part 000) -/

def msgTypeOpen : Nat := 1
def msgTypeUpdate : Nat := 2
def msgTypeNotification : Nat := 3
def msgTypeKeepAlive : Nat := 4

def headerLength : Nat := 19

def headerMarker : List Nat := List.replicate 16 0xff

/-- `marshalMessageHeader(t uint, l int)`: marker, 16-bit total length,
type byte. The `uint16(l+headerLength)` conversion is performed by
`be16`, which truncates to 16 bits. -/
def marshalMessageHeader (t : Nat) (l : Int) : Out (List Nat) :=
  if l < 0 then Out.err "Invalid message length"
  else if t = msgTypeOpen ∨ t = msgTypeUpdate ∨ t = msgTypeNotification ∨ t = msgTypeKeepAlive then
    Out.ok (headerMarker ++ be16 (l.toNat + headerLength) ++ [t % 256])
  else Out.err "Unknown message type"

/-! ### OPEN codec (open.go) -/

def bgpVersion : Nat := 4

structure msgOpen where
  ASN : Nat
  HoldTime : Nat
  RouterID : GoStr
deriving DecidableEq, Repr

/-- `marshalMessageOpen`: version, ASN, hold time, router ID octets, a
zero optional-parameters length, wrapped in an OPEN header. -/
def marshalMessageOpen (m : msgOpen) : Out (List Nat) :=
  match parseIPv4 m.RouterID with
  | none => Out.err "Invalid RouterID"
  | some (a, b, c, d) =>
    let buf := [bgpVersion] ++ be16 m.ASN ++ be16 m.HoldTime ++ [a, b, c, d] ++ [0]
    obind (marshalMessageHeader msgTypeOpen (Int.ofNat buf.length)) fun h =>
    Out.ok (h ++ buf)

/-- `unmarshalMessageOpen`: reads fixed offsets 0..8 of the body with no
bounds check. -/
def unmarshalMessageOpen (inp : List Nat) : Out msgOpen :=
  obind (byteAt inp 0) fun v =>
  if v ≠ bgpVersion then Out.err "Unsupported BGP protocol version"
  else
    obind (read16 inp 1) fun asn =>
    obind (read16 inp 3) fun hold =>
    obind (byteAt inp 5) fun a =>
    obind (byteAt inp 6) fun b =>
    obind (byteAt inp 7) fun c =>
    obind (byteAt inp 8) fun d =>
    Out.ok ⟨asn, hold, ipFormat a b c d⟩

/-! ### NOTIFICATION codec (unnamed part 001) -/

structure msgNotification where
  Code : Nat
  SubCode : Nat
  Data : GoStr
deriving DecidableEq, Repr

/-- Key membership of the `msgErrCodes` table (the human-readable values
are used only for diagnostics and are not modelled). -/
def inMsgErrCodes (c : Nat) : Bool := ([1, 2, 3, 4, 5, 6] : List Nat).contains c

/-- Key membership of `msgErrSubCodesMsg`. -/
def inSubMsg (s : Nat) : Bool := ([1, 2, 3] : List Nat).contains s

/-- Key membership of `msgErrSubCodesOpen`. -/
def inSubOpen (s : Nat) : Bool := ([1, 2, 3, 4, 6, 7] : List Nat).contains s

/-- Key membership of `msgErrSubCodesUpdate`. -/
def inSubUpdate (s : Nat) : Bool :=
  ([1, 2, 3, 4, 5, 6, 8, 9, 10, 11] : List Nat).contains s

/-- Key membership of `msgErrSubCodesCease`. -/
def inSubCease (s : Nat) : Bool :=
  ([1, 2, 3, 4, 5, 6, 7, 8, 9, 10] : List Nat).contains s

/-- `marshalMessageNotification`: validates the code against the code
table and the subcode against the tables for codes 1, 2 and 3 only (the
Go switch has no case 6), then emits code, subcode and the data tail
wrapped in a NOTIFICATION header. -/
def marshalMessageNotification (m : msgNotification) : Out (List Nat) :=
  if ¬ inMsgErrCodes m.Code then Out.err "Invalid notification error code"
  else if m.Code = 1 ∧ ¬ inSubMsg m.SubCode then
    Out.err "Invalid notification message error subcode"
  else if m.Code = 2 ∧ ¬ inSubOpen m.SubCode then
    Out.err "Invalid notification open error subcode"
  else if m.Code = 3 ∧ ¬ inSubUpdate m.SubCode then
    Out.err "Invalid notification update error subcode"
  else
    obind (marshalMessageHeader msgTypeNotification
      (Int.ofNat ([m.Code % 256, m.SubCode % 256] ++ m.Data).length)) fun h =>
    Out.ok (h ++ ([m.Code % 256, m.SubCode % 256] ++ m.Data))

/-- `unmarshalMessageNotification`: requires at least two bytes, takes the
tail as data, and validates the code and the subcode tables for codes 1,
2, 3 and 6 (the Go function returns its populated result together with a
non-nil error, modelled as `Out.err`). -/
def unmarshalMessageNotification (inp : List Nat) : Out msgNotification :=
  match inp with
  | c :: s :: rest =>
    if ¬ inMsgErrCodes c then Out.err "Invalid notification error code"
    else if c = 1 ∧ ¬ inSubMsg s then Out.err "Invalid notification message error subcode"
    else if c = 2 ∧ ¬ inSubOpen s then Out.err "Invalid notification open error subcode"
    else if c = 3 ∧ ¬ inSubUpdate s then Out.err "Invalid notification update error subcode"
    else if c = 6 ∧ ¬ inSubCease s then Out.err "Invalid notification cease error subcode"
    else Out.ok ⟨c, s, rest⟩
  | _ => Out.err "Message too small"

/-! ### UPDATE codec (update.go) -/

def attributeTypeOrigin : Nat := 1
def attributeTypeAsPath : Nat := 2
def attributeTypeNextHop : Nat := 3

/-- `TypeAsPath` (the Go field `Type` is renamed `type`, a reserved word
in Lean). -/
structure TypeAsPath where
  type : Nat
  Path : List Nat
deriving DecidableEq, Repr

structure MsgUpdate where
  Withdrawns : List GoStr
  Prefixes : List GoStr
  Origin : Nat
  AsPath : TypeAsPath
  NextHops : List GoStr
deriving DecidableEq, Repr

/-- The per-prefix encoding loops of `marshalMessageUpdate` (both the
withdrawn block and the NLRI block): each prefix contributes a mask byte
and four network bytes, the first parse error aborts. -/
def encodePrefixList : List GoStr → Out (List Nat)
  | [] => Out.ok []
  | w :: ws =>
    match parsePrefix w with
    | Out.err e => Out.err e
    | Out.crash => Out.crash
    | Out.ok (n, mk) =>
      match encodePrefixList ws with
      | Out.err e => Out.err e
      | Out.crash => Out.crash
      | Out.ok rest => Out.ok (mk :: be32 n ++ rest)

/-- The next-hop encoding loop of `marshalMessageUpdate`: each hop must be
IPv4 text, contributing its four octets. -/
def encodeHops : List GoStr → Out (List Nat)
  | [] => Out.ok []
  | h :: hs =>
    match parseIPv4 h with
    | none => Out.err "Invalid next hop"
    | some (a, b, c, d) =>
      match encodeHops hs with
      | Out.err e => Out.err e
      | Out.crash => Out.crash
      | Out.ok rest => Out.ok ([a, b, c, d] ++ rest)

/-- The AS-path body: each AS number as two big-endian bytes. -/
def encodeAsns (path : List Nat) : List Nat := (path.map be16).flatten

/-- `marshalMessageUpdate`: withdrawn block with 16-bit length, the
ORIGIN / AS_PATH / NEXT_HOP attributes guarded by the announced-prefix
count, the NLRI block, all behind an UPDATE header. Byte-typed fields
(`byte(m.Origin)`, the AS-path length and count bytes, the next-hop
length byte) truncate with `% 256`, and the 16-bit fields truncate in
`be16`. -/
def marshalMessageUpdate (m : MsgUpdate) : Out (List Nat) :=
  match encodePrefixList m.Withdrawns with
  | Out.err e => Out.err e
  | Out.crash => Out.crash
  | Out.ok wEnc =>
    let bufW := be16 (5 * m.Withdrawns.length) ++ wEnc
    let attrRes : Out (List Nat) :=
      if 0 < m.Prefixes.length then
        let bufOrigin := [0x40, attributeTypeOrigin, 1, m.Origin % 256]
        if m.AsPath.Path.length = 0 then Out.err "Empty AS path"
        else
          let bufAsPath := [0x40, attributeTypeAsPath, (m.AsPath.Path.length * 2 + 2) % 256,
                            m.AsPath.type % 256, m.AsPath.Path.length % 256] ++
                           encodeAsns m.AsPath.Path
          if m.NextHops.length = 0 then Out.err "No next hop defined"
          else
            match encodeHops m.NextHops with
            | Out.err e => Out.err e
            | Out.crash => Out.crash
            | Out.ok hEnc =>
              let bufNextHop := [0x40, attributeTypeNextHop, 4 * m.NextHops.length % 256] ++ hEnc
              Out.ok (be16 (bufOrigin.length + bufAsPath.length + bufNextHop.length) ++
                      bufOrigin ++ bufAsPath ++ bufNextHop)
      else Out.ok (be16 0)
    match attrRes with
    | Out.err e => Out.err e
    | Out.crash => Out.crash
    | Out.ok bufA =>
      match encodePrefixList m.Prefixes with
      | Out.err e => Out.err e
      | Out.crash => Out.crash
      | Out.ok nlri =>
        match marshalMessageHeader msgTypeUpdate
            (Int.ofNat (bufW.length + bufA.length + nlri.length)) with
        | Out.err e => Out.err e
        | Out.crash => Out.crash
        | Out.ok h => Out.ok (h ++ bufW ++ bufA ++ nlri)

/-- The withdrawn-routes and NLRI decoding loops of
`unmarshalMessageUpdate`: `k` five-byte entries starting at `pos`, each
rendered with `net.IPNet.String()`; the position after the loop is
`pos + 5*k`. -/
def readPrefixes (inp : List Nat) : Nat → Nat → Out (List GoStr)
  | _, 0 => Out.ok []
  | pos, k + 1 =>
    obind (byteAt inp pos) fun mk =>
    obind (byteAt inp (pos+1)) fun a =>
    obind (byteAt inp (pos+2)) fun b =>
    obind (byteAt inp (pos+3)) fun c =>
    obind (byteAt inp (pos+4)) fun d =>
    obind (readPrefixes inp (pos+5) k) fun rest =>
    Out.ok (ipnetString a b c d mk :: rest)

/-- The inner AS-number loop of the AS_PATH branch: `k` big-endian 16-bit
reads starting at `pos`; the position after the loop is `pos + 2*k`. -/
def readAsns (inp : List Nat) : Nat → Nat → Out (List Nat)
  | _, 0 => Out.ok []
  | pos, k + 1 =>
    obind (read16 inp pos) fun v =>
    obind (readAsns inp (pos+2) k) fun rest =>
    Out.ok (v :: rest)

/-- The inner hop loop of the NEXT_HOP branch: `k` four-byte reads
starting at `pos`, each rendered with `net.IP.String()`; the position
after the loop is `pos + 4*k`. -/
def readHops (inp : List Nat) : Nat → Nat → Out (List GoStr)
  | _, 0 => Out.ok []
  | pos, k + 1 =>
    obind (byteAt inp pos) fun a =>
    obind (byteAt inp (pos+1)) fun b =>
    obind (byteAt inp (pos+2)) fun c =>
    obind (byteAt inp (pos+3)) fun d =>
    obind (readHops inp (pos+4) k) fun rest =>
    Out.ok (ipFormat a b c d :: rest)

/-- The attribute walk of `unmarshalMessageUpdate` (`for pos < attrEnd`).
The first argument is fuel for structural recursion; every iteration
advances `pos` by at least 3, so fuel `attrEnd + 1` can never run out
before the loop condition fails, and the `crash` returned on fuel
exhaustion is unreachable at the call site below. Branches:
* flag byte not 0x40: skip by the length byte at `pos+2` plus 3;
* ORIGIN: one value byte at `pos+3`;
* AS_PATH: type byte, count byte, then `count` 16-bit AS numbers
  (appended to the path accumulated so far, as the Go `append` does);
* NEXT_HOP: the length byte at `pos+2` must be a multiple of 4, then
  `length/4` four-byte hops are appended;
* any other type under flag 0x40: `pos += int(in[pos])`, i.e. the flag
  byte value 0x40 itself, not the length byte. -/
def attrWalk (inp : List Nat) (attrEnd : Nat) : Nat → MsgUpdate → Nat → Out (MsgUpdate × Nat)
  | 0, _, _ => Out.crash
  | fuel + 1, st, pos =>
    if pos < attrEnd then
      obind (byteAt inp pos) fun flag =>
      if flag ≠ 0x40 then
        obind (byteAt inp (pos+2)) fun l =>
        attrWalk inp attrEnd fuel st (pos + l + 3)
      else
        obind (byteAt inp (pos+1)) fun ty =>
        if ty = attributeTypeOrigin then
          obind (byteAt inp (pos+3)) fun o =>
          attrWalk inp attrEnd fuel { st with Origin := o } (pos + 4)
        else if ty = attributeTypeAsPath then
          obind (byteAt inp (pos+3)) fun t =>
          obind (byteAt inp (pos+4)) fun cnt =>
          obind (readAsns inp (pos+5) cnt) fun asns =>
          attrWalk inp attrEnd fuel
            { st with AsPath := ⟨t, st.AsPath.Path ++ asns⟩ } (pos + 5 + 2 * cnt)
        else if ty = attributeTypeNextHop then
          obind (byteAt inp (pos+2)) fun l =>
          if l % 4 ≠ 0 then Out.err "Invalid nexthop attribute length"
          else
            obind (readHops inp (pos+3) (l / 4)) fun hops =>
            attrWalk inp attrEnd fuel
              { st with NextHops := st.NextHops ++ hops } (pos + 3 + 4 * (l / 4))
        else attrWalk inp attrEnd fuel st (pos + flag)
    else Out.ok (st, pos)

/-- The NLRI epilogue of `unmarshalMessageUpdate`. The Go subtraction
`len(in)-pos` is an `int`: when the attribute walk overshot the buffer,
the remainder is negative; its truncated `% 5` is nonzero unless the
magnitude divides 5, and a negative count makes the decoding loop run
zero times. -/
def nlriFinish (inp : List Nat) (st : MsgUpdate) (pos : Nat) : Out MsgUpdate :=
  if ((inp.length : Int) - (pos : Int)).natAbs % 5 ≠ 0 then Out.err "Invalid NLRI specification"
  else if (inp.length : Int) - (pos : Int) < 0 then Out.ok st
  else
    obind (readPrefixes inp pos ((inp.length - pos) / 5)) fun ps =>
    Out.ok { st with Prefixes := st.Prefixes ++ ps }

/-- The zero value of `MsgUpdate` with the withdrawn list filled in. -/
def mkUpdateBase (ws : List GoStr) : MsgUpdate := ⟨ws, [], 0, ⟨0, []⟩, []⟩

/-- `unmarshalMessageUpdate`: withdrawn length (must divide by 5),
withdrawn entries, 16-bit attribute length (zero returns immediately),
the attribute walk, then the NLRI remainder. -/
def unmarshalMessageUpdate (inp : List Nat) : Out MsgUpdate :=
  obind (read16 inp 0) fun cntw =>
  if cntw % 5 ≠ 0 then Out.err "Invalid withdrawn length"
  else
    obind (readPrefixes inp 2 (cntw / 5)) fun ws =>
    obind (read16 inp (2 + 5 * (cntw / 5))) fun attrlen =>
    if attrlen = 0 then Out.ok (mkUpdateBase ws)
    else
      obind (attrWalk inp (2 + 5 * (cntw / 5) + 2 + attrlen)
          (2 + 5 * (cntw / 5) + 2 + attrlen + 1)
          (mkUpdateBase ws) (2 + 5 * (cntw / 5) + 2)) fun r =>
      nlriFinish inp r.1 r.2

/-! ### Message dispatch (message.go) -/

/-- The `interface{}` payload of `message`: one constructor per concrete
payload type, plus the nil payload a KEEPALIVE leaves behind. -/
inductive MsgData where
  | dNone : MsgData
  | dOpen : msgOpen → MsgData
  | dUpdate : MsgUpdate → MsgData
  | dNotification : msgNotification → MsgData
deriving DecidableEq, Repr

structure message where
  type : Nat
  Data : MsgData
deriving DecidableEq, Repr

/-- The type switch of `unmarshalMessage`. -/
def typeDispatch (t : Nat) (rest : List Nat) : Out message :=
  if t = msgTypeOpen then
    obind (unmarshalMessageOpen rest) fun d => Out.ok ⟨t, MsgData.dOpen d⟩
  else if t = msgTypeUpdate then
    obind (unmarshalMessageUpdate rest) fun d => Out.ok ⟨t, MsgData.dUpdate d⟩
  else if t = msgTypeNotification then
    obind (unmarshalMessageNotification rest) fun d => Out.ok ⟨t, MsgData.dNotification d⟩
  else if t = msgTypeKeepAlive then Out.ok ⟨t, MsgData.dNone⟩
  else Out.err "Unknown message type"

/-- `unmarshalMessage`: 16-bit declared length from the first two bytes,
which must be at least `headerLength` and must equal
`uint16(len(in)+16)` (the caller strips the 16-byte marker); then the
type byte at offset 2 dispatches on the body from offset 3. -/
def unmarshalMessage (inp : List Nat) : Out message :=
  obind (read16 inp 0) fun l =>
  if l < headerLength then Out.err "Message too small"
  else if l ≠ (inp.length + 16) % 65536 then
    Out.err "Length of the message differs from advertised length"
  else
    obind (byteAt inp 2) fun t =>
    typeDispatch t (inp.drop 3)

/-! ### Session engine database operations (unnamed part 002) -/

/-- The session state the database operations touch: the prefix database
(a Go map, modelled as an association list with first-match lookup), the
presence of the TCP connection, and an oracle for the outcome of the
socket write a transmission attempt would perform. -/
structure BgpState where
  db : List (GoStr × MsgUpdate)
  connPresent : Bool
  writeOk : Bool
deriving DecidableEq, Repr

def dbLookup (db : List (GoStr × MsgUpdate)) (k : GoStr) : Option MsgUpdate :=
  (db.find? (fun e => e.1 == k)).map (fun e => e.2)

def dbInsert (db : List (GoStr × MsgUpdate)) (k : GoStr) (v : MsgUpdate) :
    List (GoStr × MsgUpdate) := (k, v) :: db

def dbDelete (db : List (GoStr × MsgUpdate)) (k : GoStr) :
    List (GoStr × MsgUpdate) := db.filter (fun e => ! (e.1 == k))

/-- Result of one public database operation: the state afterwards, the
returned error, and the update messages handed to `sendUpdate`. -/
structure OpResult where
  st : BgpState
  res : Out Unit
  sent : List MsgUpdate
deriving DecidableEq, Repr

/-- `sendUpdate`: fails when the connection is absent, then re-marshals
the message, then writes it (outcome given by the `writeOk` oracle). -/
def sendUpdate (st : BgpState) (m : MsgUpdate) : Out Unit :=
  if ¬ st.connPresent then Out.err "sendUpdate: BGP connection NOT ready!"
  else
    match marshalMessageUpdate m with
    | Out.err e => Out.err e
    | Out.crash => Out.crash
    | Out.ok _ => if st.writeOk then Out.ok () else Out.err "write error"

/-- `(b *BGP) Add`: rejects a prefix already in the database, builds the
single-prefix announcement, validates it through the codec, stores it,
then attempts transmission. -/
def bgpAdd (st : BgpState) (p : GoStr) (o : Nat) (a : TypeAsPath) (n : List GoStr) :
    OpResult :=
  if (dbLookup st.db p).isSome then ⟨st, Out.err "Add: Prefix alredy exists", []⟩
  else
    match marshalMessageUpdate ⟨[], [p], o, a, n⟩ with
    | Out.err e => ⟨st, Out.err e, []⟩
    | Out.crash => ⟨st, Out.crash, []⟩
    | Out.ok _ =>
      ⟨{ st with db := dbInsert st.db p ⟨[], [p], o, a, n⟩ },
       sendUpdate { st with db := dbInsert st.db p ⟨[], [p], o, a, n⟩ } ⟨[], [p], o, a, n⟩,
       [⟨[], [p], o, a, n⟩]⟩

/-- `(b *BGP) Del`: rejects an absent prefix, removes the entry, converts
the stored message into a withdrawal and attempts transmission. -/
def bgpDel (st : BgpState) (x : GoStr) : OpResult :=
  match dbLookup st.db x with
  | none => ⟨st, Out.err "Del: Prefix not found", []⟩
  | some m =>
    ⟨{ st with db := dbDelete st.db x },
     sendUpdate { st with db := dbDelete st.db x }
       { m with Withdrawns := m.Prefixes, Prefixes := [] },
     [{ m with Withdrawns := m.Prefixes, Prefixes := [] }]⟩

/-- `(b *BGP) Exists`. -/
def bgpExists (st : BgpState) (x : GoStr) : Bool := (dbLookup st.db x).isSome

/-! ### Round-trip composition used by claim C1 -/

/-- Marshal a message and decode the result with the 19-byte header
framing stripped, as the per-type decoders expect. -/
def roundTripOpen (m : msgOpen) : Out msgOpen :=
  obind (marshalMessageOpen m) fun bs => unmarshalMessageOpen (bs.drop 19)

/-- Marshal an update and decode the result with the header stripped. -/
def roundTripUpdate (m : MsgUpdate) : Out MsgUpdate :=
  obind (marshalMessageUpdate m) fun bs => unmarshalMessageUpdate (bs.drop 19)

/-- Marshal a notification and decode the result with the header
stripped. -/
def roundTripNotification (m : msgNotification) : Out msgNotification :=
  obind (marshalMessageNotification m) fun bs => unmarshalMessageNotification (bs.drop 19)

/-! ### Claim theorems -/

/-- c6: marshaling the UpdateMessage announcing "12.34.56.78/32" with
Origin=IGP (0), AsPath={Sequence (2),[1111]} and NextHops=["1.1.1.1"]
succeeds, and the body after the 19-byte header is the empty withdrawn
block `00 00`, the attribute length `00 12`, the ORIGIN attribute
`40 01 01 00`, the AS_PATH attribute `40 02 04 02 01 04 57`, the NEXT_HOP
attribute `40 03 04 01 01 01 01` and the NLRI `20 0C 22 38 4E`. -/
theorem c6_concrete_update_bytes :
    marshalMessageUpdate ⟨[], [gostr "12.34.56.78/32"], 0, ⟨2, [1111]⟩, [gostr "1.1.1.1"]⟩ =
      Out.ok (headerMarker ++ [0, 46] ++ [msgTypeUpdate] ++
        ([0, 0] ++ ([0, 18] ++ [0x40, 0x01, 0x01, 0x00] ++
          [0x40, 0x02, 0x04, 0x02, 0x01, 0x04, 0x57] ++
          [0x40, 0x03, 0x04, 0x01, 0x01, 0x01, 0x01]) ++
          [0x20, 0x0C, 0x22, 0x38, 0x4E])) := by decide

/-- c10: the per-type decoders index past the end of buffers that pass
the length and type checks of `unmarshalMessage`: the frame `00 13 01`
(declared total length 19, type OPEN, empty body) makes
`unmarshalMessageOpen` read offset 0 of an empty body, and the frame
`00 14 02 00` (type UPDATE, one body byte) makes
`unmarshalMessageUpdate` read a 2-byte withdrawn length from a 1-byte
body; both are runtime panics, not error returns. -/
theorem c10_decoders_index_out_of_range :
    unmarshalMessage [0x00, 0x13, 0x01] = Out.crash ∧
    unmarshalMessage [0x00, 0x14, 0x02, 0x00] = Out.crash := by decide

/-- c1 counterexample: the UpdateMessage announcing "1.2.3.4/24" (host
bits set) marshals successfully, but decoding the marshaled bytes gives
the masked prefix "1.2.3.0/24": `unmarshal(marshal(m))` succeeds with a
message different from `m`, refuting the unrestricted round-trip. -/
theorem c1_roundtrip_counterexample :
    roundTripUpdate ⟨[], [gostr "1.2.3.4/24"], 0, ⟨2, [1]⟩, [gostr "1.1.1.1"]⟩ =
      Out.ok ⟨[], [gostr "1.2.3.0/24"], 0, ⟨2, [1]⟩, [gostr "1.1.1.1"]⟩ ∧
    (⟨[], [gostr "1.2.3.0/24"], 0, ⟨2, [1]⟩, [gostr "1.1.1.1"]⟩ : MsgUpdate) ≠
      ⟨[], [gostr "1.2.3.4/24"], 0, ⟨2, [1]⟩, [gostr "1.1.1.1"]⟩ := by decide

/-- c2 counterexample: the withdrawal-only UpdateMessage whose single
withdrawn entry is the unparseable string "x" makes
`marshalMessageUpdate` fail, refuting the unconditional claim that every
withdrawal-only message marshals successfully. -/
theorem c2_withdrawal_counterexample :
    marshalMessageUpdate ⟨[gostr "x"], [], 0, ⟨0, []⟩, []⟩ =
      Out.err "invalid CIDR address" := by decide

/-- c3 counterexample: in the body `00 00 00 08 40 09 01 00 40 01 01 02`
the first attribute has flag 0x40 and unknown type 9 with length byte 1.
Were it skipped by its length byte, the following ORIGIN attribute would
be decoded and the message accepted; instead the walk advances by the
flag byte value 64, overshoots the buffer, and the decoder fails on the
NLRI remainder check. -/
theorem c3_unknown_type_counterexample :
    unmarshalMessageUpdate [0x00, 0x00, 0x00, 0x08, 0x40, 0x09, 0x01, 0x00,
        0x40, 0x01, 0x01, 0x02] = Out.err "Invalid NLRI specification" := by decide

/-- c4 counterexample: code 6 subcode 11 is outside the cease-subcode
table, yet `marshalMessageNotification` accepts it (the Go validation
switch has no case for code 6), refuting the claim that the marshal side
rejects every pair outside the taxonomy. -/
theorem c4_marshal_cease_counterexample :
    marshalMessageNotification ⟨6, 11, []⟩ =
      Out.ok (headerMarker ++ [0, 21] ++ [msgTypeNotification] ++ [6, 11]) := by decide

/-! ### Helper lemmas -/

@[simp] theorem byteAt_cons_zero (x : Nat) (xs : List Nat) :
    byteAt (x :: xs) 0 = Out.ok x := rfl

@[simp] theorem byteAt_cons_succ (x : Nat) (xs : List Nat) (i : Nat) :
    byteAt (x :: xs) (i + 1) = byteAt xs i := rfl

theorem byteAt_replicate (n a i : Nat) (h : i < n) :
    byteAt (List.replicate n a) i = Out.ok a := by
  unfold byteAt
  rw [List.get?_eq_get (by simpa using h)]
  simp

theorem byteAt_append_at (pre suf : List Nat) (x : Nat) :
    byteAt (pre ++ x :: suf) pre.length = Out.ok x := by
  unfold byteAt
  rw [List.get?_append_right (Nat.le_refl _)]
  simp

theorem marshalHeader_known (t : Nat) (n : Nat)
    (ht : t = msgTypeOpen ∨ t = msgTypeUpdate ∨ t = msgTypeNotification ∨ t = msgTypeKeepAlive) :
    marshalMessageHeader t (Int.ofNat n) =
      Out.ok (headerMarker ++ be16 (n + 19) ++ [t]) := by
  unfold marshalMessageHeader
  rw [if_neg (by exact not_lt.mpr (Int.ofNat_nonneg n)), if_pos ht]
  have hmod : t % 256 = t := by
    rcases ht with h | h | h | h <;> subst h <;> rfl
  simp [hmod, headerLength]

theorem parsePrefix_ne_crash (s : GoStr) : parsePrefix s ≠ Out.crash := by
  unfold parsePrefix
  cases goParseCIDR s with
  | none => simp
  | some v => cases v; simp

theorem encodePrefixList_ne_crash (ws : List GoStr) :
    encodePrefixList ws ≠ Out.crash := by
  induction ws with
  | nil => simp [encodePrefixList]
  | cons w ws ih =>
    unfold encodePrefixList
    cases hp : parsePrefix w with
    | ok v =>
      obtain ⟨n, mk⟩ := v
      cases he : encodePrefixList ws with
      | ok rest => simp
      | err e => simp
      | crash => exact absurd he ih
    | err e => simp
    | crash => exact absurd hp (parsePrefix_ne_crash w)

theorem dbLookup_dbDelete (db : List (GoStr × MsgUpdate)) (k : GoStr) :
    dbLookup (dbDelete db k) k = none := by
  unfold dbDelete dbLookup
  simp [List.find?_filter]

/-- c7: `marshalMessageHeader` fails exactly when the body length is
negative or the type is not one of OPEN/UPDATE/NOTIFICATION/KEEPALIVE;
on success it emits exactly 19 bytes: sixteen 0xFF bytes, the big-endian
`uint16(bodyLength+19)` (computed by the truncating `be16`), and the
type byte. -/
theorem c7_header_characterisation (t : Nat) (l : Int) :
    ((marshalMessageHeader t l).isOk = true ↔
      (0 ≤ l ∧ (t = msgTypeOpen ∨ t = msgTypeUpdate ∨ t = msgTypeNotification ∨
                t = msgTypeKeepAlive))) ∧
    (0 ≤ l →
      (t = msgTypeOpen ∨ t = msgTypeUpdate ∨ t = msgTypeNotification ∨ t = msgTypeKeepAlive) →
      marshalMessageHeader t l =
        Out.ok (List.replicate 16 0xff ++ be16 (l.toNat + 19) ++ [t]) ∧
      (List.replicate 16 0xff ++ be16 (l.toNat + 19) ++ [t]).length = 19) := by
  have hml : ∀ h0 : 0 ≤ l, ∀ ht : t = msgTypeOpen ∨ t = msgTypeUpdate ∨
      t = msgTypeNotification ∨ t = msgTypeKeepAlive,
      marshalMessageHeader t l =
        Out.ok (List.replicate 16 0xff ++ be16 (l.toNat + 19) ++ [t]) := by
    intro h0 ht
    have hofn : Int.ofNat l.toNat = l := by simpa using Int.toNat_of_nonneg h0
    rw [← hofn, marshalHeader_known t l.toNat ht]
    rfl
  refine ⟨⟨?_, ?_⟩, ?_⟩
  · intro h
    unfold marshalMessageHeader at h
    split at h
    · simp [Out.isOk] at h
    · rename_i hneg
      split at h
      · rename_i hty
        exact ⟨by omega, hty⟩
      · simp [Out.isOk] at h
  · rintro ⟨h0, ht⟩
    rw [hml h0 ht]
    rfl
  · intro h0 ht
    refine ⟨hml h0 ht, ?_⟩
    simp [be16]

/-- c7 witness: type UPDATE with body length 7. -/
theorem c7_header_witness :
    marshalMessageHeader 2 7 =
      Out.ok (List.replicate 16 0xff ++ be16 ((7 : Int).toNat + 19) ++ [2]) ∧
    (List.replicate 16 0xff ++ be16 ((7 : Int).toNat + 19) ++ [2]).length = 19 :=
  (c7_header_characterisation 2 7).2 (by decide) (Or.inr (Or.inl rfl))

/-- c5: for every buffer whose first two bytes exist, `unmarshalMessage`
fails when the declared 16-bit total length is below the 19-byte header
size, fails when it differs from `uint16(len(in)+16)` — the buffer
length plus the stripped 16-byte marker, reduced modulo 2^16 — and
otherwise dispatches on the type byte at offset 2 over the body from
offset 3. -/
theorem c5_unmarshal_length_checks (inp : List Nat) (a b : Nat)
    (h0 : inp.get? 0 = some a) (h1 : inp.get? 1 = some b) :
    (a * 256 + b < 19 → unmarshalMessage inp = Out.err "Message too small") ∧
    (¬ a * 256 + b < 19 → a * 256 + b ≠ (inp.length + 16) % 65536 →
      unmarshalMessage inp =
        Out.err "Length of the message differs from advertised length") ∧
    (¬ a * 256 + b < 19 → a * 256 + b = (inp.length + 16) % 65536 →
      ∀ t, inp.get? 2 = some t →
        unmarshalMessage inp = typeDispatch t (inp.drop 3)) := by
  have hread : read16 inp 0 = Out.ok (a * 256 + b) := by
    unfold read16 byteAt
    rw [h0, h1]
    rfl
  refine ⟨?_, ?_, ?_⟩
  · intro hlt
    unfold unmarshalMessage
    rw [hread, obind_ok, if_pos (by simpa [headerLength] using hlt)]
  · intro hge hne
    unfold unmarshalMessage
    rw [hread, obind_ok, if_neg (by simpa [headerLength] using hge), if_pos hne]
  · intro hge heq t ht
    unfold unmarshalMessage
    rw [hread, obind_ok, if_neg (by simpa [headerLength] using hge), if_neg (by simpa using heq)]
    unfold byteAt
    rw [ht]
    rfl

/-- c5 witness: a too-short declared length, a mismatched length, and a
well-formed KEEPALIVE frame that reaches the dispatch. -/
theorem c5_unmarshal_length_checks_witness :
    unmarshalMessage [0, 0, 0] = Out.err "Message too small" ∧
    unmarshalMessage [0, 19, 4, 9] =
      Out.err "Length of the message differs from advertised length" ∧
    unmarshalMessage [0, 19, 4] = typeDispatch 4 [] :=
  ⟨(c5_unmarshal_length_checks [0, 0, 0] 0 0 rfl rfl).1 (by decide),
   (c5_unmarshal_length_checks [0, 19, 4, 9] 0 19 rfl rfl).2.1 (by decide) (by decide),
   (c5_unmarshal_length_checks [0, 19, 4] 0 19 rfl rfl).2.2 (by decide) (by decide) 4 rfl⟩

/-- c5 counterexample: a 65539-byte buffer with declared total length 19
is accepted and dispatched — the comparison `l != uint16(len(in)+16)`
truncates the buffer length to 16 bits, so the declared length differs
from the buffer length plus 16 and yet decoding succeeds. -/
theorem c5_truncation_counterexample :
    unmarshalMessage (0 :: 19 :: 2 :: List.replicate 65536 0) =
      Out.ok ⟨2, MsgData.dUpdate (mkUpdateBase [])⟩ ∧
    (19 : Nat) ≠ (0 :: 19 :: 2 :: List.replicate 65536 0).length + 16 := by
  have hlen : (0 :: 19 :: 2 :: List.replicate 65536 0).length = 65539 := by
    rw [List.length_cons, List.length_cons, List.length_cons, List.length_replicate]
  constructor
  ·
    unfold unmarshalMessage
    have hread : read16 (0 :: 19 :: 2 :: List.replicate 65536 0) 0 = Out.ok 19 := rfl
    rw [hread, obind_ok, if_neg (by decide), if_neg (by rw [hlen]; decide)]
    have hb : byteAt (0 :: 19 :: 2 :: List.replicate 65536 0) 2 = Out.ok 2 := rfl
    rw [hb, obind_ok]
    have hdisp : typeDispatch 2 ((0 :: 19 :: 2 :: List.replicate 65536 0).drop 3) =
        obind (unmarshalMessageUpdate (List.replicate 65536 0)) fun d =>
          Out.ok ⟨2, MsgData.dUpdate d⟩ := rfl
    rw [hdisp]
    have hu : unmarshalMessageUpdate (List.replicate 65536 0) =
        Out.ok (mkUpdateBase []) := by
      unfold unmarshalMessageUpdate
      have h16 : read16 (List.replicate 65536 0) 0 = Out.ok 0 := by
        unfold read16
        rw [byteAt_replicate 65536 0 0 (by norm_num), byteAt_replicate 65536 0 1 (by norm_num)]
        rfl
      rw [h16, obind_ok, if_neg (by norm_num)]
      show obind (readPrefixes _ 2 0) _ = _
      rw [show readPrefixes (List.replicate 65536 0) 2 0 = Out.ok [] from rfl, obind_ok]
      have h16b : read16 (List.replicate 65536 0) (2 + 5 * (0 / 5)) = Out.ok 0 := by
        unfold read16
        rw [byteAt_replicate 65536 0 _ (by norm_num), byteAt_replicate 65536 0 _ (by norm_num)]
        rfl
      rw [h16b, obind_ok, if_pos rfl]
    rw [hu, obind_ok]
  · omega

/-- Validity actually enforced by `marshalMessageNotification`: subcode
tables are consulted for codes 1, 2 and 3 only. -/
def notifValidMarshal (c s : Nat) : Bool :=
  inMsgErrCodes c && (decide (c ≠ 1) || inSubMsg s) && (decide (c ≠ 2) || inSubOpen s) &&
    (decide (c ≠ 3) || inSubUpdate s)

/-- Validity enforced by `unmarshalMessageNotification`: additionally the
cease table for code 6 — the full taxonomy of the specification. -/
def notifValidUnmarshal (c s : Nat) : Bool :=
  notifValidMarshal c s && (decide (c ≠ 6) || inSubCease s)

theorem marshalHeader_notification_ofNat (n : Nat) :
    marshalMessageHeader msgTypeNotification (Int.ofNat n) =
      Out.ok (headerMarker ++ be16 (n + 19) ++ [msgTypeNotification]) :=
  marshalHeader_known msgTypeNotification n (Or.inr (Or.inr (Or.inl rfl)))

/-- c4 (amended): for every code, subcode and data tail,
`unmarshalMessageNotification` succeeds exactly on the pairs of the full
taxonomy (codes 1,2,3,6 checked against their subcode tables, codes 4
and 5 accepting any subcode, unknown codes always failing), while
`marshalMessageNotification` checks the subcode tables only for codes 1,
2 and 3 — it accepts any subcode for code 6 as well as for codes 4 and
5. -/
theorem c4_notification_validation (c s : Nat) (d : GoStr) :
    (marshalMessageNotification ⟨c, s, d⟩).isOk = notifValidMarshal c s ∧
    (unmarshalMessageNotification (c :: s :: d)).isOk = notifValidUnmarshal c s := by
  constructor
  · unfold marshalMessageNotification
    rw [marshalHeader_notification_ofNat]
    unfold notifValidMarshal
    by_cases h1 : inMsgErrCodes c <;>
    by_cases h5 : c = 1 <;>
    by_cases h6 : c = 2 <;>
    by_cases h7 : c = 3 <;>
    by_cases h2 : inSubMsg s <;>
    by_cases h3 : inSubOpen s <;>
    by_cases h4 : inSubUpdate s <;>
    simp_all [Out.isOk]
  · unfold unmarshalMessageNotification notifValidUnmarshal notifValidMarshal
    by_cases h1 : inMsgErrCodes c <;>
    by_cases h5 : c = 1 <;>
    by_cases h6 : c = 2 <;>
    by_cases h7 : c = 3 <;>
    by_cases h8 : c = 6 <;>
    by_cases h2 : inSubMsg s <;>
    by_cases h3 : inSubOpen s <;>
    by_cases h4 : inSubUpdate s <;>
    by_cases h9 : inSubCease s <;>
    simp_all [Out.isOk]

/-- c3 (amended): one walk step. An attribute whose flag byte is not 0x40
is skipped by its length byte at offset 2 plus the 3-byte attribute
header, so following attributes are still decoded; but an attribute whose
flag byte is 0x40 with a type byte other than ORIGIN/AS_PATH/NEXT_HOP
advances the position by the value of the flag byte itself (`pos +=
int(in[pos])`, i.e. 64 bytes), not by its length byte. -/
theorem c3_attribute_skip (inp : List Nat) (attrEnd fuel : Nat) (st : MsgUpdate)
    (pos : Nat) (h : pos < attrEnd) :
    (∀ flag l, byteAt inp pos = Out.ok flag → flag ≠ 0x40 →
      byteAt inp (pos + 2) = Out.ok l →
      attrWalk inp attrEnd (fuel + 1) st pos = attrWalk inp attrEnd fuel st (pos + l + 3)) ∧
    (∀ ty, byteAt inp pos = Out.ok 0x40 → byteAt inp (pos + 1) = Out.ok ty →
      ty ≠ attributeTypeOrigin → ty ≠ attributeTypeAsPath → ty ≠ attributeTypeNextHop →
      attrWalk inp attrEnd (fuel + 1) st pos = attrWalk inp attrEnd fuel st (pos + 0x40)) := by
  constructor
  · intro flag l hflag hne hlen
    show (if pos < attrEnd then _ else _) = _
    rw [if_pos h, hflag, obind_ok, if_pos hne, hlen, obind_ok]
  · intro ty hflag hty h1 h2 h3
    show (if pos < attrEnd then _ else _) = _
    rw [if_pos h, hflag, obind_ok, if_neg (by simp), hty, obind_ok,
      if_neg h1, if_neg h2, if_neg h3]

/-- c3 witness: a non-0x40 attribute with length byte 0 advances by 3; a
0x40 attribute of unknown type 9 advances by 64. -/
theorem c3_attribute_skip_witness :
    attrWalk [7, 0, 0] 10 10 (mkUpdateBase []) 0 =
      attrWalk [7, 0, 0] 10 9 (mkUpdateBase []) 3 ∧
    attrWalk [0x40, 9] 10 10 (mkUpdateBase []) 0 =
      attrWalk [0x40, 9] 10 9 (mkUpdateBase []) 64 :=
  ⟨(c3_attribute_skip [7, 0, 0] 10 9 (mkUpdateBase []) 0 (by decide)).1 7 0 rfl
      (by decide) rfl,
   (c3_attribute_skip [0x40, 9] 10 9 (mkUpdateBase []) 0 (by decide)).2 9 rfl rfl
      (by decide) (by decide) (by decide)⟩

/-- Shape of a withdrawal-only marshal: header, withdrawn block, and the
2-byte zero attribute-length field, nothing else. -/
theorem marshalUpdate_withdraw_shape (m : MsgUpdate) (wEnc : List Nat)
    (hp : m.Prefixes = []) (hok : encodePrefixList m.Withdrawns = Out.ok wEnc) :
    marshalMessageUpdate m =
      Out.ok (headerMarker ++ be16 (23 + wEnc.length) ++ [msgTypeUpdate] ++
        (be16 (5 * m.Withdrawns.length) ++ wEnc) ++ [0, 0]) := by
  unfold marshalMessageUpdate
  rw [hok, hp]
  show (match (Out.ok (be16 0) : Out (List Nat)) with
    | Out.err e => Out.err e
    | Out.crash => Out.crash
    | Out.ok bufA =>
      match encodePrefixList [] with
      | Out.err e => Out.err e
      | Out.crash => Out.crash
      | Out.ok nlri =>
        match marshalMessageHeader msgTypeUpdate
            (Int.ofNat ((be16 (5 * m.Withdrawns.length) ++ wEnc).length + bufA.length +
              nlri.length)) with
        | Out.err e => Out.err e
        | Out.crash => Out.crash
        | Out.ok h => Out.ok (h ++ (be16 (5 * m.Withdrawns.length) ++ wEnc) ++ bufA ++ nlri)) = _
  show (match marshalMessageHeader msgTypeUpdate
      (Int.ofNat ((be16 (5 * m.Withdrawns.length) ++ wEnc).length + (be16 0).length +
        ([] : List Nat).length)) with
    | Out.err e => Out.err e
    | Out.crash => Out.crash
    | Out.ok h =>
      Out.ok (h ++ (be16 (5 * m.Withdrawns.length) ++ wEnc) ++ be16 0 ++ [])) = _
  have hlen : (be16 (5 * m.Withdrawns.length) ++ wEnc).length + (be16 0).length +
      ([] : List Nat).length = 4 + wEnc.length := by
    simp [be16]
    omega
  rw [hlen, marshalHeader_known msgTypeUpdate (4 + wEnc.length) (Or.inr (Or.inl rfl))]
  have h23 : 4 + wEnc.length + 19 = 23 + wEnc.length := by omega
  rw [h23]
  show Out.ok _ = Out.ok _
  congr 1
  show headerMarker ++ be16 (23 + wEnc.length) ++ [msgTypeUpdate] ++
    (be16 (5 * m.Withdrawns.length) ++ wEnc) ++ be16 0 ++ [] = _
  simp [be16]

/-- c2 (amended): marshaling an UpdateMessage that announces at least one
prefix fails whenever the AS path is empty, and fails whenever the
next-hop list is empty; and a withdrawal-only message (no announced
prefixes, non-empty withdrawn list) whose withdrawn entries all encode
successfully marshals to a body holding only the withdrawn block
followed by the 2-byte zero total-path-attribute-length field — no path
attributes and no NLRI. -/
theorem c2_update_invariants (m : MsgUpdate) :
    (m.Prefixes ≠ [] → m.AsPath.Path = [] → (marshalMessageUpdate m).isErr = true) ∧
    (m.Prefixes ≠ [] → m.NextHops = [] → (marshalMessageUpdate m).isErr = true) ∧
    (∀ wEnc, m.Prefixes = [] → m.Withdrawns ≠ [] →
      encodePrefixList m.Withdrawns = Out.ok wEnc →
      marshalMessageUpdate m =
        Out.ok (headerMarker ++ be16 (23 + wEnc.length) ++ [msgTypeUpdate] ++
          (be16 (5 * m.Withdrawns.length) ++ wEnc) ++ [0, 0])) := by
  refine ⟨?_, ?_, ?_⟩
  · intro hp hpath
    unfold marshalMessageUpdate
    cases hw : encodePrefixList m.Withdrawns with
    | ok wEnc =>
      rw [if_pos (List.length_pos.mpr hp), if_pos (by simp [hpath])]
      rfl
    | err e => rfl
    | crash => exact absurd hw (encodePrefixList_ne_crash m.Withdrawns)
  · intro hp hhops
    unfold marshalMessageUpdate
    cases hw : encodePrefixList m.Withdrawns with
    | ok wEnc =>
      rw [if_pos (List.length_pos.mpr hp)]
      by_cases hpath : m.AsPath.Path.length = 0
      · rw [if_pos hpath]
        rfl
      · rw [if_neg hpath, if_pos (by simp [hhops])]
        rfl
    | err e => rfl
    | crash => exact absurd hw (encodePrefixList_ne_crash m.Withdrawns)
  · intro wEnc hp hw hok
    exact marshalUpdate_withdraw_shape m wEnc hp hok

/-- c2 witness: announcing with an empty AS path fails, announcing with
no next hops fails, and the pure withdrawal of 10.0.0.0/8 produces only
the withdrawn block and a zero attribute-length field. -/
theorem c2_update_invariants_witness :
    (marshalMessageUpdate ⟨[], [gostr "10.0.0.0/8"], 0, ⟨2, []⟩,
      [gostr "1.1.1.1"]⟩).isErr = true ∧
    (marshalMessageUpdate ⟨[], [gostr "10.0.0.0/8"], 0, ⟨2, [7]⟩, []⟩).isErr = true ∧
    marshalMessageUpdate ⟨[gostr "10.0.0.0/8"], [], 0, ⟨0, []⟩, []⟩ =
      Out.ok (headerMarker ++ be16 (23 + 5) ++ [msgTypeUpdate] ++
        (be16 (5 * 1) ++ [8, 10, 0, 0, 0]) ++ [0, 0]) :=
  ⟨(c2_update_invariants ⟨[], [gostr "10.0.0.0/8"], 0, ⟨2, []⟩, [gostr "1.1.1.1"]⟩).1
      (by decide) rfl,
   (c2_update_invariants ⟨[], [gostr "10.0.0.0/8"], 0, ⟨2, [7]⟩, []⟩).2.1
      (by decide) rfl,
   (c2_update_invariants ⟨[gostr "10.0.0.0/8"], [], 0, ⟨0, []⟩, []⟩).2.2
      [8, 10, 0, 0, 0] rfl (by decide) (by decide)⟩

/-- c8: for every session state, `Add` of a prefix already present fails
and leaves the state (hence the database) unchanged; `Del` of an absent
prefix fails and leaves the state unchanged; and after an `Add` that
returned no error followed by `Del` of the same prefix, `Exists` of that
prefix is false. -/
theorem c8_database_invariants (st : BgpState) (p x : GoStr) (o : Nat)
    (a : TypeAsPath) (n : List GoStr) :
    ((dbLookup st.db p).isSome →
      (bgpAdd st p o a n).res.isErr = true ∧ (bgpAdd st p o a n).st = st) ∧
    (dbLookup st.db x = none →
      (bgpDel st x).res.isErr = true ∧ (bgpDel st x).st = st) ∧
    ((bgpAdd st p o a n).res = Out.ok () →
      bgpExists (bgpDel (bgpAdd st p o a n).st p).st p = false) := by
  refine ⟨?_, ?_, ?_⟩
  · intro hpresent
    unfold bgpAdd
    rw [if_pos hpresent]
    exact ⟨rfl, rfl⟩
  · intro habsent
    unfold bgpDel
    rw [habsent]
    exact ⟨rfl, rfl⟩
  · intro hok
    unfold bgpAdd at hok ⊢
    by_cases hpresent : (dbLookup st.db p).isSome
    · rw [if_pos hpresent] at hok
      exact absurd hok (by simp)
    · rw [if_neg hpresent] at hok ⊢
      cases hm : marshalMessageUpdate ⟨[], [p], o, a, n⟩ with
      | ok bs =>
        simp only [hm]
        unfold bgpDel
        have hfind : dbLookup (dbInsert st.db p ⟨[], [p], o, a, n⟩) p =
            some ⟨[], [p], o, a, n⟩ := by
          unfold dbLookup dbInsert
          simp
        rw [hfind]
        unfold bgpExists
        simpa using dbLookup_dbDelete (dbInsert st.db p ⟨[], [p], o, a, n⟩) p
      | err e =>
        simp only [hm] at hok
        exact absurd hok (by simp)
      | crash =>
        simp only [hm] at hok
        exact absurd hok (by simp)

/-- c8 witness: on a database holding 9.9.9.9/32, re-adding it fails and
changes nothing, deleting an absent prefix fails, and an add/del pair on
10.0.0.0/8 leaves the prefix absent. -/
theorem c8_database_invariants_witness :
    ((bgpAdd ⟨[(gostr "9.9.9.9/32", ⟨[], [gostr "9.9.9.9/32"], 0, ⟨2, [7]⟩,
        [gostr "1.1.1.1"]⟩)], true, true⟩ (gostr "9.9.9.9/32") 0 ⟨2, [7]⟩
        [gostr "1.1.1.1"]).res.isErr = true ∧
      (bgpAdd ⟨[(gostr "9.9.9.9/32", ⟨[], [gostr "9.9.9.9/32"], 0, ⟨2, [7]⟩,
        [gostr "1.1.1.1"]⟩)], true, true⟩ (gostr "9.9.9.9/32") 0 ⟨2, [7]⟩
        [gostr "1.1.1.1"]).st =
        ⟨[(gostr "9.9.9.9/32", ⟨[], [gostr "9.9.9.9/32"], 0, ⟨2, [7]⟩,
          [gostr "1.1.1.1"]⟩)], true, true⟩) ∧
    (bgpDel ⟨[], true, true⟩ (gostr "10.0.0.0/8")).res.isErr = true ∧
    bgpExists (bgpDel (bgpAdd ⟨[], true, true⟩ (gostr "10.0.0.0/8") 0 ⟨2, [7]⟩
      [gostr "1.1.1.1"]).st (gostr "10.0.0.0/8")).st (gostr "10.0.0.0/8") = false :=
  ⟨(c8_database_invariants ⟨[(gostr "9.9.9.9/32", ⟨[], [gostr "9.9.9.9/32"], 0, ⟨2, [7]⟩,
      [gostr "1.1.1.1"]⟩)], true, true⟩ (gostr "9.9.9.9/32") (gostr "9.9.9.9/32") 0 ⟨2, [7]⟩
      [gostr "1.1.1.1"]).1 (by decide),
   ⟨((c8_database_invariants ⟨[], true, true⟩ (gostr "10.0.0.0/8") (gostr "10.0.0.0/8") 0
      ⟨2, [7]⟩ [gostr "1.1.1.1"]).2.1 (by decide)).1,
    (c8_database_invariants ⟨[], true, true⟩ (gostr "10.0.0.0/8") (gostr "10.0.0.0/8") 0
      ⟨2, [7]⟩ [gostr "1.1.1.1"]).2.2 (by decide)⟩⟩

/-- c9: database mutation is independent of transmission outcome. With
the socket absent, an `Add` whose message marshals successfully returns
an error and yet stores the prefix (`Exists` is true afterwards); and
`Del` of a stored prefix removes the database entry and hands
`sendUpdate` the stored message converted to a withdrawal — its former
announced prefixes moved to the withdrawn list, the announced list
emptied — for every connection-presence and write-outcome combination. -/
theorem c9_mutation_vs_transmission (st : BgpState) (p : GoStr) (o : Nat)
    (a : TypeAsPath) (n : List GoStr) (m : MsgUpdate) :
    (st.connPresent = false → dbLookup st.db p = none →
      (marshalMessageUpdate ⟨[], [p], o, a, n⟩).isOk = true →
      (bgpAdd st p o a n).res.isErr = true ∧
      bgpExists (bgpAdd st p o a n).st p = true) ∧
    (dbLookup st.db p = some m →
      (bgpDel st p).st.db = dbDelete st.db p ∧
      (bgpDel st p).sent = [{ m with Withdrawns := m.Prefixes, Prefixes := [] }]) := by
  constructor
  · intro hconn habsent hmar
    unfold bgpAdd
    rw [if_neg (by simp [habsent])]
    cases hm : marshalMessageUpdate ⟨[], [p], o, a, n⟩ with
    | ok bs =>
      simp only [hm]
      constructor
      · unfold sendUpdate
        rw [if_pos (by simp [hconn])]
        rfl
      · unfold bgpExists dbLookup dbInsert
        simp
    | err e => rw [hm] at hmar; exact absurd hmar (by simp [Out.isOk])
    | crash => rw [hm] at hmar; exact absurd hmar (by simp [Out.isOk])
  · intro hstored
    unfold bgpDel
    rw [hstored]
    exact ⟨rfl, rfl⟩

/-- c9 witness: add 10.0.0.0/8 with no socket — error but stored; delete
it from a populated database under a failing write — entry removed and
the withdrawal message handed to transmission. -/
theorem c9_mutation_vs_transmission_witness :
    ((bgpAdd ⟨[], false, true⟩ (gostr "10.0.0.0/8") 0 ⟨2, [7]⟩
        [gostr "1.1.1.1"]).res.isErr = true ∧
      bgpExists (bgpAdd ⟨[], false, true⟩ (gostr "10.0.0.0/8") 0 ⟨2, [7]⟩
        [gostr "1.1.1.1"]).st (gostr "10.0.0.0/8") = true) ∧
    ((bgpDel ⟨[(gostr "10.0.0.0/8", ⟨[], [gostr "10.0.0.0/8"], 0, ⟨2, [7]⟩,
        [gostr "1.1.1.1"]⟩)], true, false⟩ (gostr "10.0.0.0/8")).st.db =
      dbDelete [(gostr "10.0.0.0/8", ⟨[], [gostr "10.0.0.0/8"], 0, ⟨2, [7]⟩,
        [gostr "1.1.1.1"]⟩)] (gostr "10.0.0.0/8") ∧
     (bgpDel ⟨[(gostr "10.0.0.0/8", ⟨[], [gostr "10.0.0.0/8"], 0, ⟨2, [7]⟩,
        [gostr "1.1.1.1"]⟩)], true, false⟩ (gostr "10.0.0.0/8")).sent =
      [⟨[gostr "10.0.0.0/8"], [], 0, ⟨2, [7]⟩, [gostr "1.1.1.1"]⟩]) :=
  ⟨(c9_mutation_vs_transmission ⟨[], false, true⟩ (gostr "10.0.0.0/8") 0 ⟨2, [7]⟩
      [gostr "1.1.1.1"] (mkUpdateBase [])).1 rfl (by decide) (by decide),
   (c9_mutation_vs_transmission ⟨[(gostr "10.0.0.0/8", ⟨[], [gostr "10.0.0.0/8"], 0,
      ⟨2, [7]⟩, [gostr "1.1.1.1"]⟩)], true, false⟩ (gostr "10.0.0.0/8") 0 ⟨2, [7]⟩
      [gostr "1.1.1.1"] ⟨[], [gostr "10.0.0.0/8"], 0, ⟨2, [7]⟩, [gostr "1.1.1.1"]⟩).2
      (by decide)⟩

/-! ### Canonical string forms (for the amended round-trip claim) -/

/-- A dotted-quad string is canonical when re-formatting its parse result
reproduces it exactly (this is what `net.IPv4(...).String()` emits). -/
def canonIP (s : GoStr) : Bool :=
  match parseIPv4 s with
  | some (a, b, c, d) => s == ipFormat a b c d
  | none => false

/-- A CIDR string is canonical when its address equals its masked network
(no host bits) and re-formatting the parsed network and mask length
reproduces it exactly (as `net.IPNet.String()` does). -/
def canonCIDR (s : GoStr) : Bool :=
  match goParseCIDR s with
  | some (ip, mk) =>
    applyMask ip mk == ip &&
      s == ipnetString (ip / 16777216 % 256) (ip / 65536 % 256) (ip / 256 % 256) (ip % 256) mk
  | none => false

/-- The parsed (masked network, mask length) of a CIDR string, defaulting
to zeros; on canonical strings this is what `parsePrefix` returns. -/
def cidrVal (s : GoStr) : Nat × Nat :=
  match goParseCIDR s with
  | some (ip, mk) => (applyMask ip mk, mk)
  | none => (0, 0)

/-- The parsed octets of a dotted-quad string, defaulting to zeros. -/
def ipVal (s : GoStr) : Nat × Nat × Nat × Nat :=
  match parseIPv4 s with
  | some q => q
  | none => (0, 0, 0, 0)

/-- The five wire bytes of one withdrawn/NLRI entry. -/
def entryBytes (e : Nat × Nat) : List Nat := e.2 :: be32 e.1

/-- The four wire bytes of one next hop. -/
def hopBytes (q : Nat × Nat × Nat × Nat) : List Nat :=
  [q.1, q.2.1, q.2.2.1, q.2.2.2]

/-- The string `net.IPNet.String()` produces for a decoded entry. -/
def entryString (e : Nat × Nat) : GoStr :=
  ipnetString (e.1 / 16777216 % 256) (e.1 / 65536 % 256) (e.1 / 256 % 256) (e.1 % 256) e.2

/-! ### Bounds of the parsers -/

theorem parseField_le (f : List Nat) (v : Nat) (h : parseField f = some v) : v ≤ 255 := by
  unfold parseField at h
  split_ifs at h <;> simp_all

theorem parseMaskLen_le (f : List Nat) (v : Nat) (h : parseMaskLen f = some v) : v ≤ 32 := by
  unfold parseMaskLen at h
  split_ifs at h <;> simp_all

theorem parseIPv4_le (s : GoStr) (a b c d : Nat) (h : parseIPv4 s = some (a, b, c, d)) :
    a ≤ 255 ∧ b ≤ 255 ∧ c ≤ 255 ∧ d ≤ 255 := by
  unfold parseIPv4 at h
  split at h
  · rename_i f1 f2 f3 f4 heq
    cases h1 : parseField f1 with
    | none => rw [h1] at h; simp at h
    | some va =>
      cases h2 : parseField f2 with
      | none => rw [h1, h2] at h; simp at h
      | some vb =>
        cases h3 : parseField f3 with
        | none => rw [h1, h2, h3] at h; simp at h
        | some vc =>
          cases h4 : parseField f4 with
          | none => rw [h1, h2, h3, h4] at h; simp at h
          | some vd =>
            rw [h1, h2, h3, h4] at h
            simp at h
            obtain ⟨ha, hb, hc, hd⟩ := h
            subst ha hb hc hd
            exact ⟨parseField_le _ _ h1, parseField_le _ _ h2,
                   parseField_le _ _ h3, parseField_le _ _ h4⟩
  · simp at h

theorem u32_lt (a b c d : Nat) (ha : a ≤ 255) (hb : b ≤ 255) (hc : c ≤ 255) (hd : d ≤ 255) :
    u32 a b c d < 4294967296 := by
  unfold u32
  omega

theorem goParseCIDR_bounds (s : GoStr) (ip mk : Nat) (h : goParseCIDR s = some (ip, mk)) :
    ip < 4294967296 ∧ mk ≤ 32 := by
  unfold goParseCIDR at h
  split at h
  · simp at h
  · rename_i addr mask heq
    cases h1 : parseIPv4 addr with
    | none => rw [h1] at h; simp at h
    | some q =>
      obtain ⟨a, b, c, d⟩ := q
      cases h2 : parseMaskLen mask with
      | none => rw [h1, h2] at h; simp at h
      | some mk2 =>
        rw [h1, h2] at h
        simp at h
        obtain ⟨hip, hmk⟩ := h
        subst hip hmk
        obtain ⟨ha, hb, hc, hd⟩ := parseIPv4_le addr a b c d h1
        exact ⟨u32_lt a b c d ha hb hc hd, parseMaskLen_le _ _ h2⟩

theorem applyMask_le (ip mk : Nat) : applyMask ip mk ≤ ip := by
  unfold applyMask
  calc ip / 2 ^ (32 - mk) * 2 ^ (32 - mk) ≤ ip := Nat.div_mul_le_self ip _

/-! ### Canonical-string decode lemmas -/

theorem canonCIDR_val (s : GoStr) (h : canonCIDR s = true) :
    parsePrefix s = Out.ok (cidrVal s) ∧
    entryString (cidrVal s) = s ∧
    (cidrVal s).1 < 4294967296 ∧ (cidrVal s).2 ≤ 32 := by
  unfold canonCIDR at h
  split at h
  · rename_i ip mk heq
    simp only [Bool.and_eq_true, beq_iff_eq] at h
    obtain ⟨hmask, hs⟩ := h
    obtain ⟨hip, hmk⟩ := goParseCIDR_bounds s ip mk heq
    unfold parsePrefix cidrVal entryString
    rw [heq]
    refine ⟨rfl, ?_, ?_, hmk⟩
    · simp only [hmask, hs]
    · simpa [hmask] using lt_of_le_of_lt (applyMask_le ip mk) hip
  · simp at h

theorem canonIP_val (s : GoStr) (h : canonIP s = true) :
    parseIPv4 s = some (ipVal s) ∧
    ipFormat (ipVal s).1 (ipVal s).2.1 (ipVal s).2.2.1 (ipVal s).2.2.2 = s := by
  unfold canonIP at h
  split at h
  · rename_i a b c d heq
    simp only [beq_iff_eq] at h
    unfold ipVal
    rw [heq]
    exact ⟨rfl, h.symm⟩
  · simp at h

/-! ### Positioned reads over structured buffers -/

theorem byteAt_at (inp pre suf : List Nat) (x pos : Nat)
    (hinp : inp = pre ++ x :: suf) (hpos : pos = pre.length) :
    byteAt inp pos = Out.ok x := by
  subst hinp hpos
  exact byteAt_append_at pre suf x

theorem read16_at (inp pre suf : List Nat) (x y pos : Nat)
    (hinp : inp = pre ++ x :: y :: suf) (hpos : pos = pre.length) :
    read16 inp pos = Out.ok (x * 256 + y) := by
  unfold read16
  rw [byteAt_at inp pre (y :: suf) x pos hinp hpos, obind_ok,
    byteAt_at inp (pre ++ [x]) suf y (pos + 1) (by simp [hinp]) (by simp [hpos]), obind_ok]

theorem read16_be16 (v : Nat) (hv : v < 65536) (inp pre suf : List Nat) (pos : Nat)
    (hinp : inp = pre ++ be16 v ++ suf) (hpos : pos = pre.length) :
    read16 inp pos = Out.ok v := by
  rw [read16_at inp pre suf (v / 256 % 256) (v % 256) pos (by simpa [be16] using hinp) hpos]
  congr 1
  omega

/-! ### Wire lengths of the encoded blocks -/

theorem encodeAsns_length (asns : List Nat) : (encodeAsns asns).length = 2 * asns.length := by
  induction asns with
  | nil => rfl
  | cons v rest ih =>
    unfold encodeAsns at ih ⊢
    simp only [List.map_cons, List.flatten_cons, List.length_append, ih, be16,
      List.length_cons, List.length_nil]
    omega

theorem hopsFlat_length (qs : List (Nat × Nat × Nat × Nat)) :
    ((qs.map hopBytes).flatten).length = 4 * qs.length := by
  induction qs with
  | nil => rfl
  | cons q rest ih =>
    simp only [List.map_cons, List.flatten_cons, List.length_append, ih, hopBytes,
      List.length_cons, List.length_nil, List.length_map]
    omega

theorem entriesFlat_length (es : List (Nat × Nat)) :
    ((es.map entryBytes).flatten).length = 5 * es.length := by
  induction es with
  | nil => rfl
  | cons e rest ih =>
    simp only [List.map_cons, List.flatten_cons, List.length_append, ih, entryBytes, be32,
      List.length_cons, List.length_nil, List.length_map]
    omega

/-! ### The decoding loops read back what the encoders wrote -/

theorem readAsns_encode (asns : List Nat) (pre suf : List Nat)
    (h : ∀ v ∈ asns, v < 65536) :
    readAsns (pre ++ encodeAsns asns ++ suf) pre.length asns.length = Out.ok asns := by
  induction asns generalizing pre with
  | nil => rfl
  | cons v rest ih =>
    have hv : v < 65536 := h v (by simp)
    have henc : encodeAsns (v :: rest) = be16 v ++ encodeAsns rest := by
      unfold encodeAsns
      simp
    show readAsns _ pre.length (rest.length + 1) = _
    unfold readAsns
    rw [read16_be16 v hv _ pre (encodeAsns rest ++ suf) pre.length (by simp [henc]) rfl,
      obind_ok]
    have hlen : pre.length + 2 = (pre ++ be16 v).length := by simp [be16]
    rw [hlen,
      show pre ++ encodeAsns (v :: rest) ++ suf = (pre ++ be16 v) ++ encodeAsns rest ++ suf by
        simp [henc],
      ih (pre ++ be16 v) (fun u hu => h u (by simp [hu])), obind_ok]

theorem readHops_encode (qs : List (Nat × Nat × Nat × Nat)) (pre suf : List Nat) :
    readHops (pre ++ (qs.map hopBytes).flatten ++ suf) pre.length qs.length =
      Out.ok (qs.map fun q => ipFormat q.1 q.2.1 q.2.2.1 q.2.2.2) := by
  induction qs generalizing pre with
  | nil => rfl
  | cons q rest ih =>
    obtain ⟨a, b, c, d⟩ := q
    have hflat : ((⟨a, b, c, d⟩ :: rest).map hopBytes).flatten =
        a :: b :: c :: d :: (rest.map hopBytes).flatten := by
      simp [hopBytes]
    show readHops _ pre.length (rest.length + 1) = _
    unfold readHops
    rw [byteAt_at _ pre (b :: c :: d :: ((rest.map hopBytes).flatten ++ suf)) a pre.length
        (by rw [hflat]; simp) rfl, obind_ok,
      byteAt_at _ (pre ++ [a]) (c :: d :: ((rest.map hopBytes).flatten ++ suf)) b (pre.length + 1)
        (by rw [hflat]; simp) (by simp), obind_ok,
      byteAt_at _ (pre ++ [a, b]) (d :: ((rest.map hopBytes).flatten ++ suf)) c (pre.length + 2)
        (by rw [hflat]; simp) (by simp), obind_ok,
      byteAt_at _ (pre ++ [a, b, c]) ((rest.map hopBytes).flatten ++ suf) d (pre.length + 3)
        (by rw [hflat]; simp) (by simp), obind_ok]
    have hlen : pre.length + 4 = (pre ++ [a, b, c, d]).length := by simp
    rw [hlen,
      show pre ++ ((⟨a, b, c, d⟩ :: rest).map hopBytes).flatten ++ suf =
          (pre ++ [a, b, c, d]) ++ (rest.map hopBytes).flatten ++ suf by rw [hflat]; simp,
      ih (pre ++ [a, b, c, d]), obind_ok]
    simp

theorem readPrefixes_encode (es : List (Nat × Nat)) (pre suf : List Nat) :
    readPrefixes (pre ++ (es.map entryBytes).flatten ++ suf) pre.length es.length =
      Out.ok (es.map entryString) := by
  induction es generalizing pre with
  | nil => rfl
  | cons e rest ih =>
    obtain ⟨n, mk⟩ := e
    have hflat : ((⟨n, mk⟩ :: rest).map entryBytes).flatten =
        mk :: (n / 16777216 % 256) :: (n / 65536 % 256) :: (n / 256 % 256) :: (n % 256) ::
          (rest.map entryBytes).flatten := by
      simp [entryBytes, be32]
    show readPrefixes _ pre.length (rest.length + 1) = _
    unfold readPrefixes
    rw [byteAt_at _ pre
        ((n / 16777216 % 256) :: (n / 65536 % 256) :: (n / 256 % 256) :: (n % 256) ::
          ((rest.map entryBytes).flatten ++ suf)) mk pre.length
        (by rw [hflat]; simp) rfl, obind_ok,
      byteAt_at _ (pre ++ [mk])
        ((n / 65536 % 256) :: (n / 256 % 256) :: (n % 256) ::
          ((rest.map entryBytes).flatten ++ suf)) (n / 16777216 % 256) (pre.length + 1)
        (by rw [hflat]; simp) (by simp), obind_ok,
      byteAt_at _ (pre ++ [mk, n / 16777216 % 256])
        ((n / 256 % 256) :: (n % 256) :: ((rest.map entryBytes).flatten ++ suf))
        (n / 65536 % 256) (pre.length + 2)
        (by rw [hflat]; simp) (by simp), obind_ok,
      byteAt_at _ (pre ++ [mk, n / 16777216 % 256, n / 65536 % 256])
        ((n % 256) :: ((rest.map entryBytes).flatten ++ suf)) (n / 256 % 256)
        (pre.length + 3) (by rw [hflat]; simp) (by simp), obind_ok,
      byteAt_at _ (pre ++ [mk, n / 16777216 % 256, n / 65536 % 256, n / 256 % 256])
        ((rest.map entryBytes).flatten ++ suf) (n % 256)
        (pre.length + 4) (by rw [hflat]; simp) (by simp), obind_ok]
    have hlen : pre.length + 5 =
        (pre ++ [mk, n / 16777216 % 256, n / 65536 % 256, n / 256 % 256, n % 256]).length := by
      simp
    rw [hlen,
      show pre ++ ((⟨n, mk⟩ :: rest).map entryBytes).flatten ++ suf =
          (pre ++ [mk, n / 16777216 % 256, n / 65536 % 256, n / 256 % 256, n % 256]) ++
            (rest.map entryBytes).flatten ++ suf by rw [hflat]; simp,
      ih (pre ++ [mk, n / 16777216 % 256, n / 65536 % 256, n / 256 % 256, n % 256]), obind_ok]
    simp [entryString]

/-! ### The encoders on canonical strings -/

theorem encodePrefixList_canon (ws : List GoStr) (h : ∀ w ∈ ws, canonCIDR w = true) :
    encodePrefixList ws = Out.ok (((ws.map cidrVal).map entryBytes).flatten) := by
  induction ws with
  | nil => rfl
  | cons w rest ih =>
    have hw := canonCIDR_val w (h w (by simp))
    unfold encodePrefixList
    rw [hw.1, ih (fun x hx => h x (by simp [hx]))]
    simp [entryBytes, cidrVal]

theorem encodeHops_canon (hs : List GoStr) (h : ∀ x ∈ hs, canonIP x = true) :
    encodeHops hs = Out.ok (((hs.map ipVal).map hopBytes).flatten) := by
  induction hs with
  | nil => rfl
  | cons x rest ih =>
    have hx := canonIP_val x (h x (by simp))
    unfold encodeHops
    rw [hx.1, ih (fun y hy => h y (by simp [hy]))]
    simp [hopBytes, ipVal]

theorem entryString_cidrVal (ws : List GoStr) (h : ∀ w ∈ ws, canonCIDR w = true) :
    (ws.map cidrVal).map entryString = ws := by
  rw [List.map_map]
  have : ∀ w ∈ ws, (entryString ∘ cidrVal) w = id w := by
    intro w hw
    exact (canonCIDR_val w (h w hw)).2.1
  rw [List.map_congr_left this, List.map_id]

theorem ipFormat_ipVal (hs : List GoStr) (h : ∀ x ∈ hs, canonIP x = true) :
    (hs.map ipVal).map (fun q => ipFormat q.1 q.2.1 q.2.2.1 q.2.2.2) = hs := by
  rw [List.map_map]
  have : ∀ x ∈ hs, ((fun q => ipFormat q.1 q.2.1 q.2.2.1 q.2.2.2) ∘ ipVal) x = id x := by
    intro x hx
    exact (canonIP_val x (h x hx)).2
  rw [List.map_congr_left this, List.map_id]

/-! ### Single steps of the attribute walk -/

theorem byteAt_pre (pre l : List Nat) (i pos x : Nat) (hpos : pos = pre.length + i)
    (h : byteAt l i = Out.ok x) : byteAt (pre ++ l) pos = Out.ok x := by
  subst hpos
  unfold byteAt at h ⊢
  rw [List.get?_append_right (Nat.le_add_right _ _), Nat.add_sub_cancel_left]
  exact h

theorem readAsns_pre (pre l suf : List Nat) (asns : List Nat) (pos : Nat)
    (hpos : pos = pre.length) (h : ∀ v ∈ asns, v < 65536) (hl : l = encodeAsns asns) :
    readAsns (pre ++ l ++ suf) pos asns.length = Out.ok asns := by
  subst hpos hl
  exact readAsns_encode asns pre suf h

theorem attrWalk_step_origin (inp : List Nat) (attrEnd fuel : Nat) (st : MsgUpdate)
    (pos o : Nat) (h : pos < attrEnd)
    (hflag : byteAt inp pos = Out.ok 0x40)
    (hty : byteAt inp (pos + 1) = Out.ok 1)
    (ho : byteAt inp (pos + 3) = Out.ok o) :
    attrWalk inp attrEnd (fuel + 1) st pos =
      attrWalk inp attrEnd fuel { st with Origin := o } (pos + 4) := by
  have h1 : (1 : Nat) = attributeTypeOrigin := rfl
  show (if pos < attrEnd then _ else _) = _
  rw [if_pos h, hflag, obind_ok, if_neg (by simp), hty, obind_ok,
    if_pos h1, ho, obind_ok]

theorem attrWalk_step_aspath (inp : List Nat) (attrEnd fuel : Nat) (st : MsgUpdate)
    (pos t cnt : Nat) (asns : List Nat) (h : pos < attrEnd)
    (hflag : byteAt inp pos = Out.ok 0x40)
    (hty : byteAt inp (pos + 1) = Out.ok 2)
    (ht : byteAt inp (pos + 3) = Out.ok t)
    (hcnt : byteAt inp (pos + 4) = Out.ok cnt)
    (hasns : readAsns inp (pos + 5) cnt = Out.ok asns) :
    attrWalk inp attrEnd (fuel + 1) st pos =
      attrWalk inp attrEnd fuel { st with AsPath := ⟨t, st.AsPath.Path ++ asns⟩ }
        (pos + 5 + 2 * cnt) := by
  have h2 : (2 : Nat) = attributeTypeAsPath := rfl
  show (if pos < attrEnd then _ else _) = _
  rw [if_pos h, hflag, obind_ok, if_neg (by simp), hty, obind_ok,
    if_neg (by decide), if_pos h2, ht, obind_ok, hcnt, obind_ok, hasns, obind_ok]

theorem attrWalk_step_nexthop (inp : List Nat) (attrEnd fuel : Nat) (st : MsgUpdate)
    (pos l : Nat) (hops : List GoStr) (h : pos < attrEnd)
    (hflag : byteAt inp pos = Out.ok 0x40)
    (hty : byteAt inp (pos + 1) = Out.ok 3)
    (hl : byteAt inp (pos + 2) = Out.ok l)
    (hmod : l % 4 = 0)
    (hhops : readHops inp (pos + 3) (l / 4) = Out.ok hops) :
    attrWalk inp attrEnd (fuel + 1) st pos =
      attrWalk inp attrEnd fuel { st with NextHops := st.NextHops ++ hops }
        (pos + 3 + 4 * (l / 4)) := by
  have h3 : (3 : Nat) = attributeTypeNextHop := rfl
  show (if pos < attrEnd then _ else _) = _
  rw [if_pos h, hflag, obind_ok, if_neg (by simp), hty, obind_ok,
    if_neg (by decide), if_neg (by decide), if_pos h3, hl, obind_ok,
    if_neg (by simp [hmod]), hhops, obind_ok]

theorem attrWalk_step_nexthop_count (inp : List Nat) (attrEnd fuel : Nat) (st : MsgUpdate)
    (pos k : Nat) (hops : List GoStr) (h : pos < attrEnd)
    (hflag : byteAt inp pos = Out.ok 0x40)
    (hty : byteAt inp (pos + 1) = Out.ok 3)
    (hl : byteAt inp (pos + 2) = Out.ok (4 * k))
    (hhops : readHops inp (pos + 3) k = Out.ok hops) :
    attrWalk inp attrEnd (fuel + 1) st pos =
      attrWalk inp attrEnd fuel { st with NextHops := st.NextHops ++ hops }
        (pos + 3 + 4 * k) := by
  have hdiv : 4 * k / 4 = k := Nat.mul_div_cancel_left k (by norm_num)
  have := attrWalk_step_nexthop inp attrEnd fuel st pos (4 * k) hops h hflag hty hl
    (by omega) (by rw [hdiv]; exact hhops)
  rw [this, hdiv]

theorem attrWalk_done (inp : List Nat) (attrEnd fuel : Nat) (st : MsgUpdate)
    (pos : Nat) (h : ¬ pos < attrEnd) :
    attrWalk inp attrEnd (fuel + 1) st pos = Out.ok (st, pos) := by
  show (if pos < attrEnd then _ else _) = _
  rw [if_neg h]

theorem readHops_pre (pre l suf : List Nat) (qs : List (Nat × Nat × Nat × Nat)) (pos : Nat)
    (hpos : pos = pre.length) (hl : l = (qs.map hopBytes).flatten) :
    readHops (pre ++ l ++ suf) pos qs.length =
      Out.ok (qs.map fun q => ipFormat q.1 q.2.1 q.2.2.1 q.2.2.2) := by
  subst hpos hl
  exact readHops_encode qs pre suf

/-- Walking the exact ORIGIN / AS_PATH / NEXT_HOP block the marshaler
emits decodes the three attributes into the accumulator and stops at the
end of the block. -/
theorem attrWalk_attrs (f : Nat) (pre suf : List Nat) (o t lb : Nat) (asns : List Nat)
    (qs : List (Nat × Nat × Nat × Nat)) (ws : List GoStr)
    (hA : ∀ v ∈ asns, v < 65536) :
    attrWalk
      (pre ++ ([0x40, 1, 1, o] ++ ([0x40, 2, lb, t, asns.length] ++ encodeAsns asns) ++
        ([0x40, 3, 4 * qs.length] ++ (qs.map hopBytes).flatten)) ++ suf)
      (pre.length + (12 + 2 * asns.length + 4 * qs.length)) (f + 4)
      (mkUpdateBase ws) pre.length =
    Out.ok (⟨ws, [], o, ⟨t, asns⟩, qs.map fun q => ipFormat q.1 q.2.1 q.2.2.1 q.2.2.2⟩,
      pre.length + (12 + 2 * asns.length + 4 * qs.length)) := by
  set L := asns.length with hL
  set K := qs.length with hK
  set inp : List Nat :=
    pre ++ ([0x40, 1, 1, o] ++ ([0x40, 2, lb, t, L] ++ encodeAsns asns) ++
      ([0x40, 3, 4 * K] ++ (qs.map hopBytes).flatten)) ++ suf with hinp
  set attrEnd := pre.length + (12 + 2 * L + 4 * K) with hend
  set hopstrs : List GoStr := qs.map fun q => ipFormat q.1 q.2.1 q.2.2.1 q.2.2.2 with hhs
  have hshape : inp = pre ++ (0x40 :: 1 :: 1 :: o :: 0x40 :: 2 :: lb :: t :: L ::
      (encodeAsns asns ++ 0x40 :: 3 :: (4 * K) ::
        ((qs.map hopBytes).flatten ++ suf))) := by
    rw [hinp]
    simp
  have hshape2 : inp = (pre ++ [0x40, 1, 1, o, 0x40, 2, lb, t, L]) ++ encodeAsns asns ++
      (0x40 :: 3 :: (4 * K) :: ((qs.map hopBytes).flatten ++ suf)) := by
    rw [hshape]
    simp
  have hshape3 : inp = (pre ++ [0x40, 1, 1, o, 0x40, 2, lb, t, L] ++ encodeAsns asns) ++
      (0x40 :: 3 :: (4 * K) :: ((qs.map hopBytes).flatten ++ suf)) := by
    rw [hshape]
    simp
  have hshape4 : inp = (pre ++ [0x40, 1, 1, o, 0x40, 2, lb, t, L] ++ encodeAsns asns ++
      [0x40, 3, 4 * K]) ++ (qs.map hopBytes).flatten ++ suf := by
    rw [hshape]
    simp
  have hlen3 : (pre ++ [0x40, 1, 1, o, 0x40, 2, lb, t, L] ++ encodeAsns asns).length =
      pre.length + 9 + 2 * L := by
    simp [encodeAsns_length, hL]
    omega
  have hstep1 := attrWalk_step_origin inp attrEnd (f + 3) (mkUpdateBase ws) pre.length o
    (by omega)
    (by rw [hshape]; exact byteAt_pre pre _ 0 _ 0x40 (by omega) rfl)
    (by rw [hshape]; exact byteAt_pre pre _ 1 _ 1 rfl rfl)
    (by rw [hshape]; exact byteAt_pre pre _ 3 _ o rfl rfl)
  have hasns : readAsns inp (pre.length + 4 + 5) L = Out.ok asns := by
    rw [hshape2, hL]
    exact readAsns_pre _ _ _ asns _ (by simp) hA rfl
  have hstep2 := attrWalk_step_aspath inp attrEnd (f + 2)
    ⟨ws, [], o, ⟨0, []⟩, []⟩ (pre.length + 4) t L asns
    (by omega)
    (by rw [hshape]; exact byteAt_pre pre _ 4 _ 0x40 rfl rfl)
    (by rw [hshape]; exact byteAt_pre pre _ 5 _ 2 (by omega) rfl)
    (by rw [hshape]; exact byteAt_pre pre _ 7 _ t (by omega) rfl)
    (by rw [hshape]; exact byteAt_pre pre _ 8 _ L (by omega) rfl)
    hasns
  have hhops : readHops inp (pre.length + 9 + 2 * L + 3) K = Out.ok hopstrs := by
    rw [hshape4, hK, hhs]
    exact readHops_pre _ _ _ qs _ (by simp [encodeAsns_length, hL]; omega) rfl
  have hstep3 := attrWalk_step_nexthop_count inp attrEnd (f + 1)
    ⟨ws, [], o, ⟨t, asns⟩, []⟩ (pre.length + 9 + 2 * L) K hopstrs
    (by omega)
    (by rw [hshape3]; exact byteAt_pre _ _ 0 _ 0x40 (by omega) rfl)
    (by rw [hshape3]; exact byteAt_pre _ _ 1 _ 3 (by rw [hlen3]) rfl)
    (by rw [hshape3]; exact byteAt_pre _ _ 2 _ (4 * K) (by rw [hlen3]) rfl)
    hhops
  have hdone := attrWalk_done inp attrEnd f
    ⟨ws, [], o, ⟨t, asns⟩, hopstrs⟩
    (pre.length + 9 + 2 * L + 3 + 4 * K)
    (by omega)
  have hpos_end : pre.length + 9 + 2 * L + 3 + 4 * K = attrEnd := by
    omega
  show attrWalk inp attrEnd (f + 4) (mkUpdateBase ws) pre.length = _
  calc attrWalk inp attrEnd (f + 3 + 1) (mkUpdateBase ws) pre.length
      = attrWalk inp attrEnd (f + 3) ⟨ws, [], o, ⟨0, []⟩, []⟩ (pre.length + 4) := by
        rw [hstep1]
        rfl
    _ = attrWalk inp attrEnd (f + 2) ⟨ws, [], o, ⟨t, asns⟩, []⟩
        (pre.length + 4 + 5 + 2 * L) := by
        rw [hstep2]
        rfl
    _ = attrWalk inp attrEnd (f + 1) ⟨ws, [], o, ⟨t, asns⟩, hopstrs⟩
        (pre.length + 9 + 2 * L + 3 + 4 * K) := by
        rw [show pre.length + 4 + 5 + 2 * L = pre.length + 9 + 2 * L from by omega, hstep3]
        rfl
    _ = Out.ok (⟨ws, [], o, ⟨t, asns⟩, hopstrs⟩, attrEnd) := by
        rw [hdone, hpos_end]

theorem drop19_header (v x : Nat) (rest : List Nat) :
    ((headerMarker ++ be16 v ++ [x]) ++ rest).drop 19 = rest := by
  rw [show 19 = (headerMarker ++ be16 v ++ [x]).length from by simp [headerMarker, be16],
    List.drop_left]

/-- Round trip for a canonical OPEN message. -/
theorem roundTripOpen_canon (asn hold : Nat) (rid : GoStr)
    (ha : asn < 65536) (hh : hold < 65536) (hc : canonIP rid = true) :
    roundTripOpen ⟨asn, hold, rid⟩ = Out.ok ⟨asn, hold, rid⟩ := by
  obtain ⟨hparse, hfmt⟩ := canonIP_val rid hc
  rcases hq : ipVal rid with ⟨a, b, c, d⟩
  rw [hq] at hparse hfmt
  simp only [Prod.fst, Prod.snd] at hfmt
  unfold roundTripOpen marshalMessageOpen
  simp only [hparse]
  have hblen : ([bgpVersion] ++ be16 asn ++ be16 hold ++ [a, b, c, d] ++ [0]).length = 10 := by
    simp [be16]
  rw [hblen, marshalHeader_known msgTypeOpen 10 (Or.inl rfl), obind_ok, obind_ok, drop19_header]
  have hun : unmarshalMessageOpen ([bgpVersion] ++ be16 asn ++ be16 hold ++ [a, b, c, d] ++ [0]) =
      Out.ok ⟨(asn / 256 % 256) * 256 + asn % 256, (hold / 256 % 256) * 256 + hold % 256,
        ipFormat a b c d⟩ := rfl
  rw [hun, hfmt,
    show (asn / 256 % 256) * 256 + asn % 256 = asn from by omega,
    show (hold / 256 % 256) * 256 + hold % 256 = hold from by omega]

theorem drop19_assoc (v x : Nat) (rest : List Nat) :
    (headerMarker ++ (be16 v ++ x :: rest)).drop 19 = rest := by
  rw [show headerMarker ++ (be16 v ++ x :: rest) = (headerMarker ++ be16 v ++ [x]) ++ rest from
      by simp]
  exact drop19_header v x rest

/-- Round trip for a notification whose (code, subcode) pair lies in the
full taxonomy. -/
theorem roundTripNotification_canon (c s : Nat) (d : GoStr)
    (hval : notifValidUnmarshal c s = true) (hs : s < 256) :
    roundTripNotification ⟨c, s, d⟩ = Out.ok ⟨c, s, d⟩ := by
  have hval' := hval
  unfold notifValidUnmarshal notifValidMarshal at hval'
  simp only [Bool.and_eq_true, Bool.or_eq_true, decide_eq_true_eq] at hval'
  obtain ⟨⟨⟨⟨hcode, h1⟩, h2⟩, h3⟩, h6⟩ := hval'
  have hcmem : c = 1 ∨ c = 2 ∨ c = 3 ∨ c = 4 ∨ c = 5 ∨ c = 6 := by
    simpa [inMsgErrCodes] using hcode
  have hsmod : s % 256 = s := Nat.mod_eq_of_lt hs
  unfold roundTripNotification marshalMessageNotification
  rw [marshalHeader_notification_ofNat]
  rcases hcmem with rfl | rfl | rfl | rfl | rfl | rfl
  · have hsub : inSubMsg s = true := by
      rcases h1 with h | h
      · exact absurd rfl h
      · exact h
    simp [hsub, hsmod, drop19_assoc, unmarshalMessageNotification, inMsgErrCodes]
  · have hsub : inSubOpen s = true := by
      rcases h2 with h | h
      · exact absurd rfl h
      · exact h
    simp [hsub, hsmod, drop19_assoc, unmarshalMessageNotification, inMsgErrCodes]
  · have hsub : inSubUpdate s = true := by
      rcases h3 with h | h
      · exact absurd rfl h
      · exact h
    simp [hsub, hsmod, drop19_assoc, unmarshalMessageNotification, inMsgErrCodes]
  · simp [hsmod, drop19_assoc, unmarshalMessageNotification, inMsgErrCodes]
  · simp [hsmod, drop19_assoc, unmarshalMessageNotification, inMsgErrCodes]
  · have hsub : inSubCease s = true := by
      rcases h6 with h | h
      · exact absurd rfl h
      · exact h
    simp [hsub, hsmod, drop19_assoc, unmarshalMessageNotification, inMsgErrCodes]

theorem readPrefixes_pre (pre l suf : List Nat) (es : List (Nat × Nat)) (pos k : Nat)
    (hpos : pos = pre.length) (hk : k = es.length) (hl : l = (es.map entryBytes).flatten) :
    readPrefixes (pre ++ l ++ suf) pos k = Out.ok (es.map entryString) := by
  subst hpos hk hl
  exact readPrefixes_encode es pre suf

/-- Round trip for a canonical withdrawal-only update message. -/
theorem roundTripUpdate_canon_withdraw (W : List GoStr)
    (hW : ∀ w ∈ W, canonCIDR w = true) (hlen : 5 * W.length < 65536) :
    roundTripUpdate ⟨W, [], 0, ⟨0, []⟩, []⟩ = Out.ok ⟨W, [], 0, ⟨0, []⟩, []⟩ := by
  have hWenc := encodePrefixList_canon W hW
  have hwlen : (((W.map cidrVal).map entryBytes).flatten).length = 5 * W.length := by
    rw [entriesFlat_length]
    simp
  unfold roundTripUpdate
  rw [marshalUpdate_withdraw_shape ⟨W, [], 0, ⟨0, []⟩, []⟩ _ rfl hWenc, obind_ok]
  rw [show headerMarker ++ be16 (23 + (((W.map cidrVal).map entryBytes).flatten).length) ++
      [msgTypeUpdate] ++
      (be16 (5 * W.length) ++ ((W.map cidrVal).map entryBytes).flatten) ++ [0, 0] =
      (headerMarker ++ be16 (23 + (((W.map cidrVal).map entryBytes).flatten).length) ++
        [msgTypeUpdate]) ++
      ((be16 (5 * W.length) ++ ((W.map cidrVal).map entryBytes).flatten) ++ [0, 0]) from by
        simp,
    drop19_header]
  unfold unmarshalMessageUpdate
  rw [read16_be16 (5 * W.length) hlen _ []
      (((W.map cidrVal).map entryBytes).flatten ++ [0, 0]) 0 (by simp) rfl, obind_ok,
    if_neg (by omega),
    show 5 * W.length / 5 = W.length from Nat.mul_div_cancel_left _ (by norm_num),
    readPrefixes_pre (be16 (5 * W.length)) (((W.map cidrVal).map entryBytes).flatten) [0, 0]
      (W.map cidrVal) 2 W.length (by simp [be16]) (by simp) rfl, obind_ok,
    entryString_cidrVal W hW,
    read16_at _ (be16 (5 * W.length) ++ ((W.map cidrVal).map entryBytes).flatten) [] 0 0
      (2 + 5 * W.length) (by simp) (by rw [List.length_append, hwlen]; simp [be16]), obind_ok,
    if_pos (by norm_num)]
  rfl

theorem readPrefixes_at (inp pre l suf : List Nat) (es : List (Nat × Nat)) (pos k : Nat)
    (hinp : inp = pre ++ l ++ suf) (hpos : pos = pre.length) (hk : k = es.length)
    (hl : l = (es.map entryBytes).flatten) :
    readPrefixes inp pos k = Out.ok (es.map entryString) := by
  subst hinp hpos hk hl
  exact readPrefixes_encode es pre suf

/-- Decoding the exact body the marshaler emits for an update that
announces prefixes: withdrawn block, attribute length, the three
attributes, and the NLRI block. -/
theorem unmarshalUpdate_canonBody (W P H : List GoStr) (o t lb : Nat) (path : List Nat)
    (hW : ∀ w ∈ W, canonCIDR w = true) (hWlen : 5 * W.length < 65536)
    (hP : ∀ p ∈ P, canonCIDR p = true)
    (hpath : ∀ v ∈ path, v < 65536)
    (hpathlen : path.length ≤ 126) (hHlen : H.length ≤ 63)
    (hH : ∀ x ∈ H, canonIP x = true) :
    unmarshalMessageUpdate
      ((be16 (5 * W.length) ++ ((W.map cidrVal).map entryBytes).flatten ++
          be16 (12 + 2 * path.length + 4 * H.length)) ++
        ([0x40, 1, 1, o] ++ ([0x40, 2, lb, t, path.length] ++ encodeAsns path) ++
          ([0x40, 3, 4 * H.length] ++ ((H.map ipVal).map hopBytes).flatten)) ++
        ((P.map cidrVal).map entryBytes).flatten) =
      Out.ok ⟨W, P, o, ⟨t, path⟩, H⟩ := by
  set wF := ((W.map cidrVal).map entryBytes).flatten with hwF
  set hF := ((H.map ipVal).map hopBytes).flatten with hhF
  set pF := ((P.map cidrVal).map entryBytes).flatten with hpF
  set E := 12 + 2 * path.length + 4 * H.length with hE
  set ATTR := [0x40, 1, 1, o] ++ ([0x40, 2, lb, t, path.length] ++ encodeAsns path) ++
      ([0x40, 3, 4 * H.length] ++ hF) with hATTR
  set BODY := (be16 (5 * W.length) ++ wF ++ be16 E) ++ ATTR ++ pF with hBODY
  have hwlen : wF.length = 5 * W.length := by
    rw [hwF, entriesFlat_length]
    simp
  have hplen : pF.length = 5 * P.length := by
    rw [hpF, entriesFlat_length]
    simp
  have hhlen : hF.length = 4 * H.length := by
    rw [hhF, hopsFlat_length]
    simp
  have hAlen : ATTR.length = E := by
    rw [hATTR, hE]
    simp [encodeAsns_length, hhlen]
    omega
  have hdiv : 5 * W.length / 5 = W.length := Nat.mul_div_cancel_left _ (by norm_num)
  have hElt : E < 65536 := by
    rw [hE]
    omega
  have hBlen : BODY.length = 2 + 5 * W.length + 2 + E + 5 * P.length := by
    rw [hBODY]
    simp [be16, hwlen, hplen, hAlen]
    omega
  unfold unmarshalMessageUpdate
  rw [read16_be16 (5 * W.length) hWlen BODY [] (wF ++ be16 E ++ ATTR ++ pF) 0
      (by rw [hBODY]; simp) rfl, obind_ok, if_neg (by omega), hdiv,
    readPrefixes_at BODY (be16 (5 * W.length)) wF (be16 E ++ ATTR ++ pF) (W.map cidrVal) 2
      W.length (by rw [hBODY]; simp) (by simp [be16]) (by simp) hwF, obind_ok,
    entryString_cidrVal W hW,
    read16_be16 E hElt BODY (be16 (5 * W.length) ++ wF) (ATTR ++ pF) (2 + 5 * W.length)
      (by rw [hBODY]; simp) (by simp [be16, hwlen]; omega), obind_ok,
    if_neg (by omega)]
  have hwalk := attrWalk_attrs (5 * W.length + E + 1) (be16 (5 * W.length) ++ wF ++ be16 E)
    pF o t lb path (H.map ipVal) W hpath
  simp only [List.length_map] at hwalk
  rw [← hhF, ← hATTR, ← hBODY, ipFormat_ipVal H hH] at hwalk
  have hpreL : (be16 (5 * W.length) ++ wF ++ be16 E).length = 2 + 5 * W.length + 2 := by
    simp [be16, hwlen]
    omega
  rw [hpreL, ← hE] at hwalk
  rw [show 2 + 5 * W.length + 2 + E + 1 = 5 * W.length + E + 1 + 4 from by omega,
    hwalk, obind_ok]
  unfold nlriFinish
  rw [if_neg (by rw [hBlen]; omega), if_neg (by rw [hBlen]; omega)]
  have h5P : BODY.length - (2 + 5 * W.length + 2 + E) = 5 * P.length := by
    rw [hBlen]
    omega
  rw [h5P, show 5 * P.length / 5 = P.length from Nat.mul_div_cancel_left _ (by norm_num),
    readPrefixes_at BODY ((be16 (5 * W.length) ++ wF ++ be16 E) ++ ATTR) pF [] (P.map cidrVal)
      (2 + 5 * W.length + 2 + E) P.length (by rw [hBODY]; simp)
      (by simp [be16, hwlen, hAlen]; omega) (by simp) hpF, obind_ok,
    entryString_cidrVal P hP]
  rfl

theorem drop19_header_app3 (v x : Nat) (b1 b2 b3 : List Nat) :
    ((headerMarker ++ be16 v ++ [x]) ++ b1 ++ b2 ++ b3).drop 19 = b1 ++ b2 ++ b3 := by
  rw [show (headerMarker ++ be16 v ++ [x]) ++ b1 ++ b2 ++ b3 =
      (headerMarker ++ be16 v ++ [x]) ++ (b1 ++ b2 ++ b3) from by simp, drop19_header]

/-- Round trip for a canonical update message announcing prefixes. -/
theorem roundTripUpdate_canon_announce (W P H : List GoStr) (o t : Nat) (path : List Nat)
    (hW : ∀ w ∈ W, canonCIDR w = true) (hWlen : 5 * W.length < 65536)
    (hP : ∀ p ∈ P, canonCIDR p = true) (hPne : P ≠ [])
    (ho : o < 256) (ht : t < 256)
    (hpathne : path ≠ []) (hpathlen : path.length ≤ 126)
    (hpath : ∀ v ∈ path, v < 65536)
    (hHne : H ≠ []) (hHlen : H.length ≤ 63)
    (hH : ∀ x ∈ H, canonIP x = true) :
    roundTripUpdate ⟨W, P, o, ⟨t, path⟩, H⟩ = Out.ok ⟨W, P, o, ⟨t, path⟩, H⟩ := by
  have hWenc := encodePrefixList_canon W hW
  have hPenc := encodePrefixList_canon P hP
  have hHenc := encodeHops_canon H hH
  have hPpos : 0 < P.length := List.length_pos.mpr hPne
  have hpath0 : ¬ path.length = 0 := fun h => hpathne (List.length_eq_zero.mp h)
  have hH0 : ¬ H.length = 0 := fun h => hHne (List.length_eq_zero.mp h)
  have hmo : o % 256 = o := Nat.mod_eq_of_lt ho
  have hmt : t % 256 = t := Nat.mod_eq_of_lt ht
  have hmL : path.length % 256 = path.length := Nat.mod_eq_of_lt (by omega)
  have hmlb : (path.length * 2 + 2) % 256 = path.length * 2 + 2 := Nat.mod_eq_of_lt (by omega)
  have hmhb : 4 * H.length % 256 = 4 * H.length := Nat.mod_eq_of_lt (by omega)
  unfold roundTripUpdate marshalMessageUpdate
  simp only [hWenc]
  rw [if_pos hPpos, if_neg hpath0, if_neg hH0]
  simp only [hHenc, hPenc]
  rw [marshalHeader_known msgTypeUpdate _ (Or.inr (Or.inl rfl))]
  simp only [obind_ok]
  rw [drop19_header_app3]
  convert unmarshalUpdate_canonBody W P H o t (path.length * 2 + 2) path
    hW hWlen hP hpath hpathlen hHlen hH using 2
  have hhlen3 : ((H.map (hopBytes ∘ ipVal)).flatten).length = 4 * H.length := by
    rw [← List.map_map, hopsFlat_length]
    simp
  simp [hmo, hmt, hmL, hmlb, hmhb, encodeAsns_length, hopsFlat_length, hhlen3, be16,
    attributeTypeOrigin, attributeTypeAsPath, attributeTypeNextHop, -List.length_flatten]
  omega

/-- C1 (amended): unmarshal(marshal(m)) = m for the three message kinds under
canonicality and wire-width side conditions. An OPEN whose ASN and hold time
fit 16 bits and whose router ID is a canonical dotted-quad round-trips; a
NOTIFICATION whose (code, subcode) pair lies in the full taxonomy and whose
subcode fits 8 bits round-trips; a withdrawal-only UPDATE (no prefixes,
zero-valued origin / AS path / next hops) whose withdrawn strings are
canonical CIDR prefixes round-trips; and an announcing UPDATE whose withdrawn
and announced strings are canonical CIDR prefixes, whose origin and path type
fit 8 bits, whose AS path holds 1..126 entries each fitting 16 bits, and
whose 1..63 next hops are canonical dotted-quads, round-trips. The raw claim
is refuted by c1_roundtrip_counterexample: "1.2.3.4/24" decodes back as
"1.2.3.0/24" because net.ParseCIDR masks the host bits. -/
theorem c1_roundtrip_canonical :
    (∀ asn hold rid, asn < 65536 → hold < 65536 → canonIP rid = true →
      roundTripOpen ⟨asn, hold, rid⟩ = Out.ok ⟨asn, hold, rid⟩) ∧
    (∀ c s d, notifValidUnmarshal c s = true → s < 256 →
      roundTripNotification ⟨c, s, d⟩ = Out.ok ⟨c, s, d⟩) ∧
    (∀ W, (∀ w ∈ W, canonCIDR w = true) → 5 * W.length < 65536 →
      roundTripUpdate ⟨W, [], 0, ⟨0, []⟩, []⟩ = Out.ok ⟨W, [], 0, ⟨0, []⟩, []⟩) ∧
    (∀ W P H o t path, (∀ w ∈ W, canonCIDR w = true) → 5 * W.length < 65536 →
      (∀ p ∈ P, canonCIDR p = true) → P ≠ [] → o < 256 → t < 256 →
      path ≠ [] → path.length ≤ 126 → (∀ v ∈ path, v < 65536) →
      H ≠ [] → H.length ≤ 63 → (∀ x ∈ H, canonIP x = true) →
      roundTripUpdate ⟨W, P, o, ⟨t, path⟩, H⟩ = Out.ok ⟨W, P, o, ⟨t, path⟩, H⟩) :=
  ⟨fun asn hold rid ha hh hc => roundTripOpen_canon asn hold rid ha hh hc,
   fun c s d hval hs => roundTripNotification_canon c s d hval hs,
   fun W hW hlen => roundTripUpdate_canon_withdraw W hW hlen,
   fun W P H o t path hW hWlen hP hPne ho ht hpne hplen hp hHne hHlen hH =>
     roundTripUpdate_canon_announce W P H o t path hW hWlen hP hPne ho ht
       hpne hplen hp hHne hHlen hH⟩

theorem c1_roundtrip_canonical_witness :
    roundTripOpen ⟨1111, 30, gostr "1.1.1.1"⟩ = Out.ok ⟨1111, 30, gostr "1.1.1.1"⟩ ∧
    roundTripNotification ⟨6, 10, gostr "bye"⟩ = Out.ok ⟨6, 10, gostr "bye"⟩ ∧
    roundTripUpdate ⟨[gostr "10.0.0.0/8"], [], 0, ⟨0, []⟩, []⟩ =
      Out.ok ⟨[gostr "10.0.0.0/8"], [], 0, ⟨0, []⟩, []⟩ ∧
    roundTripUpdate ⟨[gostr "10.0.0.0/8"], [gostr "12.34.56.78/32"], 0, ⟨2, [1111]⟩,
        [gostr "1.1.1.1"]⟩ =
      Out.ok ⟨[gostr "10.0.0.0/8"], [gostr "12.34.56.78/32"], 0, ⟨2, [1111]⟩,
        [gostr "1.1.1.1"]⟩ :=
  ⟨c1_roundtrip_canonical.1 1111 30 (gostr "1.1.1.1") (by decide) (by decide) (by decide),
   c1_roundtrip_canonical.2.1 6 10 (gostr "bye") (by decide) (by decide),
   c1_roundtrip_canonical.2.2.1 [gostr "10.0.0.0/8"] (by decide) (by decide),
   c1_roundtrip_canonical.2.2.2 [gostr "10.0.0.0/8"] [gostr "12.34.56.78/32"]
     [gostr "1.1.1.1"] 0 2 [1111] (by decide) (by decide) (by decide) (by decide)
     (by decide) (by decide) (by decide) (by decide) (by decide) (by decide)
     (by decide) (by decide)⟩
